import Mathlib

/-!
# Scrollback offset and selection translation (`st/patch/scrollback.c`)

A shallow embedding of the four scroll operations of the terminal's scrollback
patch: `kscrolldown`, `kscrolldown_nosel`, `kscrollup`, `kscrollup_nosel`.

* The globals `term` and `sel` become fields of an explicit `State`.
* C `int` is a 32-bit two's-complement integer.  The definitions whose names end in
  `32` (`kscrolldown32`, `kscrolldown_nosel32`, `kscrollup32`, `kscrollup_nosel32`)
  are the embedding of the source: every arithmetic result is wrapped modulo `2^32`.
* The definitions without the suffix read the same statements over unbounded integers.
  They agree with the source wherever no computation overflows (`int32_agrees`) and
  are the unbounded reference of that comparison; statements about the post-state and
  the call log that do not depend on the size of `n` are proved of them.
* The functions `selscroll`, `tfulldirt`, `selclear`, `scroll_images` and
  `restoremousecursor` are called by the source but defined elsewhere.  Each call
  is recorded, with its arguments, at the end of the log `State.calls`; what the
  callee does to the terminal is not part of this file.
* The macros `HISTSIZE`, `SIXEL_PATCH` and `OPENURLONCLICK_PATCH` are build
  parameters, collected in `Config`.
* `DBGSEL` is a debug print; it reads the state and changes nothing, so it has no
  counterpart here.
-/

namespace Scrollback

/-- Build-time parameters: the macros the source uses but does not define. -/
structure Config where
  HISTSIZE : Int
  SIXEL_PATCH : Bool
  OPENURLONCLICK_PATCH : Bool
  deriving DecidableEq

/-- The key-binding argument `Arg`, of which the source reads the member `i`. -/
structure Arg where
  i : Int
  deriving DecidableEq

/-- The members of the global `term` that the source reads or writes. -/
structure Term where
  scr : Int
  histn : Int
  row : Int
  deriving DecidableEq

/-- A selection anchor; the source touches only its row `y`. -/
structure Point where
  y : Int
  deriving DecidableEq

/-- The members of the global `sel` that the source reads or writes. -/
structure Selection where
  ob : Point
  oe : Point
  nb : Point
  ne : Point
  deriving DecidableEq

/-- A call to a function that the source uses and does not define. -/
inductive Call where
  | selscroll (orig : Int) (n : Int)
  | tfulldirt
  | selclear
  | scroll_images (n : Int)
  | restoremousecursor
  deriving DecidableEq

/-- The globals `term` and `sel`, and the log of collaborator calls, oldest first. -/
structure State where
  term : Term
  sel : Selection
  calls : List Call
  deriving DecidableEq

/-- Modelled from the spec: the macro `MIN` is not defined in the source; the
normalised begin row is the minimum of the two anchor rows. -/
def MIN (a b : Int) : Int := if a < b then a else b

/-- Modelled from the spec: the macro `MAX` is not defined in the source; the
normalised end row is the maximum of the two anchor rows. -/
def MAX (a b : Int) : Int := if a < b then b else a

/-- The assignment `term.scr = v`. -/
def set_term_scr (v : Int) (s : State) : State :=
  { s with term := { s.term with scr := v } }

/-- The assignment `sel.ob.y = v`. -/
def set_sel_ob_y (v : Int) (s : State) : State :=
  { s with sel := { s.sel with ob := { y := v } } }

/-- The assignment `sel.oe.y = v`. -/
def set_sel_oe_y (v : Int) (s : State) : State :=
  { s with sel := { s.sel with oe := { y := v } } }

/-- The assignment `sel.nb.y = v`. -/
def set_sel_nb_y (v : Int) (s : State) : State :=
  { s with sel := { s.sel with nb := { y := v } } }

/-- The assignment `sel.ne.y = v`. -/
def set_sel_ne_y (v : Int) (s : State) : State :=
  { s with sel := { s.sel with ne := { y := v } } }

/-- Record one collaborator call at the end of the log. -/
def emit (c : Call) (s : State) : State :=
  { s with calls := s.calls ++ [c] }

/-- The call `selscroll(orig, n)`. -/
def selscroll (orig n : Int) (s : State) : State := emit (Call.selscroll orig n) s

/-- The call `tfulldirt()`. -/
def tfulldirt (s : State) : State := emit Call.tfulldirt s

/-- The call `selclear()`. -/
def selclear (s : State) : State := emit Call.selclear s

/-- The call `scroll_images(n)`. -/
def scroll_images (n : Int) (s : State) : State := emit (Call.scroll_images n) s

/-- The call `restoremousecursor()`. -/
def restoremousecursor (s : State) : State := emit Call.restoremousecursor s

/-- The statements of `kscrolldown(const Arg* a)` over unbounded integers; the
embedding with 32-bit `int` is `kscrolldown32`. -/
def kscrolldown (c : Config) (a : Arg) (s : State) : State :=
  let n := a.i
  let n := if n < 0 then -n else n
  let n := if n > s.term.scr then s.term.scr else n
  let s :=
    if s.term.scr > 0 then
      let s := set_term_scr (s.term.scr - n) s
      let s := selscroll 0 (-n) s
      tfulldirt s
    else s
  let s := if c.SIXEL_PATCH then scroll_images (-1 * n) s else s
  let s := if c.OPENURLONCLICK_PATCH then (if n > 0 then restoremousecursor s else s) else s
  s

/-- The statements of `kscrolldown_nosel(int n)` (scroll down without clearing an
active selection) over unbounded integers; the embedding with 32-bit `int` is
`kscrolldown_nosel32`. -/
def kscrolldown_nosel (n : Int) (s : State) : State :=
  let n := if n < 0 then -n else n
  let n := if n > s.term.scr then s.term.scr else n
  if s.term.scr > 0 then
    let s := set_term_scr (s.term.scr - n) s
    let s := set_sel_ob_y (s.sel.ob.y - n) s
    let s := set_sel_oe_y (s.sel.oe.y - n) s
    let s := set_sel_nb_y (MIN s.sel.ob.y s.sel.oe.y) s
    let s := set_sel_ne_y (MAX s.sel.ob.y s.sel.oe.y) s
    let s :=
      if (s.sel.ob.y < 0 ∧ s.sel.oe.y < 0) ∨
          (s.sel.ob.y ≥ s.term.row ∧ s.sel.oe.y ≥ s.term.row) then
        selclear s
      else s
    tfulldirt s
  else s

/-- The statements of `kscrollup(const Arg* a)` over unbounded integers; the embedding
with 32-bit `int` is `kscrollup32`. -/
def kscrollup (c : Config) (a : Arg) (s : State) : State :=
  let n := a.i
  let n := if n < 0 then -n else n
  let n := if s.term.scr + n > s.term.histn then s.term.histn - s.term.scr else n
  if n = 0 then s
  else
    let s :=
      if s.term.scr ≤ c.HISTSIZE - n then
        let s := set_term_scr (s.term.scr + n) s
        let s := selscroll 0 n s
        tfulldirt s
      else s
    let s := if c.SIXEL_PATCH then scroll_images n s else s
    let s := if c.OPENURLONCLICK_PATCH then (if n > 0 then restoremousecursor s else s) else s
    s

/-- The statements of `kscrollup_nosel(int n)` (scroll up without clearing an active
selection) over unbounded integers; the embedding with 32-bit `int` is
`kscrollup_nosel32`. -/
def kscrollup_nosel (c : Config) (n : Int) (s : State) : State :=
  let n := if n < 0 then -n else n
  let n := if s.term.scr + n > s.term.histn then s.term.histn - s.term.scr else n
  if n = 0 then s
  else if s.term.scr ≤ c.HISTSIZE - n then
    let s := set_term_scr (s.term.scr + n) s
    let s := set_sel_ob_y (s.sel.ob.y + n) s
    let s := set_sel_oe_y (s.sel.oe.y + n) s
    let s := set_sel_nb_y (MIN s.sel.ob.y s.sel.oe.y) s
    let s := set_sel_ne_y (MAX s.sel.ob.y s.sel.oe.y) s
    let s :=
      if (s.sel.ob.y < 0 ∧ s.sel.oe.y < 0) ∨
          (s.sel.ob.y ≥ s.term.row ∧ s.sel.oe.y ≥ s.term.row) then
        selclear s
      else s
    tfulldirt s
  else s

/-- A sample build: `HISTSIZE = 2000`, both optional hooks compiled in. -/
def cfgFull : Config := { HISTSIZE := 2000, SIXEL_PATCH := true, OPENURLONCLICK_PATCH := true }

/-- A sample state: 24 rows, 100 lines of history, the view scrolled back by 10,
a selection from row 5 to row 10, no call logged. -/
def stSample : State :=
  { term := { scr := 10, histn := 100, row := 24 },
    sel := { ob := { y := 5 }, oe := { y := 10 }, nb := { y := 5 }, ne := { y := 10 } },
    calls := [] }

/-- The scroll invariant `0 ≤ term.scr ≤ term.histn ≤ HISTSIZE`. -/
def ScrollInv (c : Config) (s : State) : Prop :=
  0 ≤ s.term.scr ∧ s.term.scr ≤ s.term.histn ∧ s.term.histn ≤ c.HISTSIZE

instance (c : Config) (s : State) : Decidable (ScrollInv c s) :=
  inferInstanceAs (Decidable (0 ≤ s.term.scr ∧ s.term.scr ≤ s.term.histn ∧ s.term.histn ≤ c.HISTSIZE))

/-- The collaborator calls logged between the state `before` and the later state
`after`. -/
def issued (before after : State) : List Call :=
  after.calls.drop before.calls.length

/-- The number of lines by which `kscrolldown` and `kscrolldown_nosel` move the view:
the argument with its sign dropped, then clamped to `term.scr` (the first two `if`s of
both functions). -/
def downAmount (n scr : Int) : Int :=
  let n := if n < 0 then -n else n
  if n > scr then scr else n

/-- The number of lines by which `kscrollup` and `kscrollup_nosel` move the view:
the argument with its sign dropped, then clamped to `term.histn - term.scr` (the first
two `if`s of both functions). -/
def upAmount (n scr histn : Int) : Int :=
  let n := if n < 0 then -n else n
  if scr + n > histn then histn - scr else n

/-- From `s` to `d` the view offset and both raw selection rows moved by `k`. -/
def TranslatedBy (s d : State) (k : Int) : Prop :=
  d.term.scr = s.term.scr + k ∧ d.sel.ob.y = s.sel.ob.y + k ∧ d.sel.oe.y = s.sel.oe.y + k

instance (s d : State) (k : Int) : Decidable (TranslatedBy s d k) :=
  inferInstanceAs (Decidable (_ ∧ _ ∧ _))

/-- The normalised rows of the selection are the minimum and the maximum of the raw
rows. -/
def Normalised (sel : Selection) : Prop :=
  sel.nb.y = min sel.ob.y sel.oe.y ∧ sel.ne.y = max sel.ob.y sel.oe.y

instance (sel : Selection) : Decidable (Normalised sel) :=
  inferInstanceAs (Decidable (_ ∧ _))

/-- Both raw end points are above the window `[0, row)` or both are below it. -/
def SameSideOut (ob oe row : Int) : Prop :=
  (ob < 0 ∧ oe < 0) ∨ (row ≤ ob ∧ row ≤ oe)

instance (ob oe row : Int) : Decidable (SameSideOut ob oe row) :=
  inferInstanceAs (Decidable (_ ∨ _))

/-- The row range `[nb, ne]` lies outside the window `[0, row)`: it ends above the
first row or starts below the last one. -/
def RangeOutside (nb ne row : Int) : Prop :=
  ne < 0 ∨ row ≤ nb

instance (nb ne row : Int) : Decidable (RangeOutside nb ne row) :=
  inferInstanceAs (Decidable (_ ∨ _))

/-- The two end points lie on different sides of the upper boundary (row `0`) or of
the lower boundary (row `row`) of the window. -/
def Straddles (ob oe row : Int) : Prop :=
  (ob < 0 ∧ 0 ≤ oe) ∨ (oe < 0 ∧ 0 ≤ ob) ∨ (ob < row ∧ row ≤ oe) ∨ (oe < row ∧ row ≤ ob)

instance (ob oe row : Int) : Decidable (Straddles ob oe row) :=
  inferInstanceAs (Decidable (_ ∨ _ ∨ _ ∨ _))

/-- A state with a selection that, three lines further down, has its begin above
the window and its end inside it. -/
def stStraddle : State :=
  { term := { scr := 10, histn := 100, row := 24 },
    sel := { ob := { y := 2 }, oe := { y := 6 }, nb := { y := 2 }, ne := { y := 6 } },
    calls := [Call.tfulldirt] }

/-- A state satisfying the scroll invariant in which the normalised rows reach
beyond the raw rows, as after snapping the selection to whole lines. -/
def stSnapped : State :=
  { term := { scr := 10, histn := 100, row := 24 },
    sel := { ob := { y := 5 }, oe := { y := 10 }, nb := { y := 4 }, ne := { y := 11 } },
    calls := [] }

/-- A state at the live bottom of the buffer: `term.scr = 0`. -/
def stBottom : State :=
  { term := { scr := 0, histn := 100, row := 24 },
    sel := { ob := { y := 5 }, oe := { y := 10 }, nb := { y := 5 }, ne := { y := 10 } },
    calls := [] }

/-- A state scrolled back to the oldest line: `term.scr = term.histn = 100`. -/
def stTop : State :=
  { term := { scr := 100, histn := 100, row := 24 },
    sel := { ob := { y := 5 }, oe := { y := 10 }, nb := { y := 5 }, ne := { y := 10 } },
    calls := [Call.tfulldirt] }

/-- The calls that handle the selection (`selscroll`, `selclear`) and the optional
hooks (`scroll_images`, `restoremousecursor`); `tfulldirt` is neither. -/
def Call.isSelOrHook : Call → Bool
  | Call.selscroll _ _ => true
  | Call.tfulldirt => false
  | Call.selclear => true
  | Call.scroll_images _ => true
  | Call.restoremousecursor => true

/-- A state, scrolled back by 10, whose selection lies wholly above the window:
`ob.y = -5`, `oe.y = -2`, normalised, 24 rows. -/
def stOutAbove : State :=
  { term := { scr := 10, histn := 100, row := 24 },
    sel := { ob := { y := -5 }, oe := { y := -2 }, nb := { y := -5 }, ne := { y := -2 } },
    calls := [] }

/-! ## The operations with 32-bit `int` arithmetic

Every arithmetic operation of the source appears here with its result wrapped modulo
`2^32` into the range of a 32-bit two's-complement `int`. -/

/-- The largest 32-bit `int`. -/
def INT_MAX : Int := 2147483647

/-- The smallest 32-bit `int`. -/
def INT_MIN : Int := -2147483648

/-- The integer `x` is the value of a 32-bit `int`: computing it does not overflow. -/
def InInt32 (x : Int) : Prop := INT_MIN ≤ x ∧ x ≤ INT_MAX

instance (x : Int) : Decidable (InInt32 x) :=
  inferInstanceAs (Decidable (_ ∧ _))

/-- Wrap an exact result modulo `2^32` into `[-2^31, 2^31)`. -/
def wrap32 (x : Int) : Int := (x + 2147483648) % 4294967296 - 2147483648

/-- The 32-bit `-a`. -/
def neg32 (a : Int) : Int := wrap32 (-a)

/-- The 32-bit `a + b`. -/
def add32 (a b : Int) : Int := wrap32 (a + b)

/-- The 32-bit `a - b`. -/
def sub32 (a b : Int) : Int := wrap32 (a - b)

/-- The 32-bit `a * b`. -/
def mul32 (a b : Int) : Int := wrap32 (a * b)

/-- The function `kscrolldown(const Arg* a)`, with the 32-bit arithmetic of `int`. -/
def kscrolldown32 (c : Config) (a : Arg) (s : State) : State :=
  let n := a.i
  let n := if n < 0 then neg32 n else n
  let n := if n > s.term.scr then s.term.scr else n
  let s :=
    if s.term.scr > 0 then
      let s := set_term_scr (sub32 s.term.scr n) s
      let s := selscroll 0 (neg32 n) s
      tfulldirt s
    else s
  let s := if c.SIXEL_PATCH then scroll_images (mul32 (-1) n) s else s
  let s := if c.OPENURLONCLICK_PATCH then (if n > 0 then restoremousecursor s else s) else s
  s

/-- The function `kscrolldown_nosel(int n)` (scroll down without clearing an active
selection), with the 32-bit arithmetic of `int`. -/
def kscrolldown_nosel32 (n : Int) (s : State) : State :=
  let n := if n < 0 then neg32 n else n
  let n := if n > s.term.scr then s.term.scr else n
  if s.term.scr > 0 then
    let s := set_term_scr (sub32 s.term.scr n) s
    let s := set_sel_ob_y (sub32 s.sel.ob.y n) s
    let s := set_sel_oe_y (sub32 s.sel.oe.y n) s
    let s := set_sel_nb_y (MIN s.sel.ob.y s.sel.oe.y) s
    let s := set_sel_ne_y (MAX s.sel.ob.y s.sel.oe.y) s
    let s :=
      if (s.sel.ob.y < 0 ∧ s.sel.oe.y < 0) ∨
          (s.sel.ob.y ≥ s.term.row ∧ s.sel.oe.y ≥ s.term.row) then
        selclear s
      else s
    tfulldirt s
  else s

/-- The function `kscrollup(const Arg* a)`, with the 32-bit arithmetic of `int`. -/
def kscrollup32 (c : Config) (a : Arg) (s : State) : State :=
  let n := a.i
  let n := if n < 0 then neg32 n else n
  let n := if add32 s.term.scr n > s.term.histn then sub32 s.term.histn s.term.scr else n
  if n = 0 then s
  else
    let s :=
      if s.term.scr ≤ sub32 c.HISTSIZE n then
        let s := set_term_scr (add32 s.term.scr n) s
        let s := selscroll 0 n s
        tfulldirt s
      else s
    let s := if c.SIXEL_PATCH then scroll_images n s else s
    let s := if c.OPENURLONCLICK_PATCH then (if n > 0 then restoremousecursor s else s) else s
    s

/-- The function `kscrollup_nosel(int n)` (scroll up without clearing an active
selection), with the 32-bit arithmetic of `int`. -/
def kscrollup_nosel32 (c : Config) (n : Int) (s : State) : State :=
  let n := if n < 0 then neg32 n else n
  let n := if add32 s.term.scr n > s.term.histn then sub32 s.term.histn s.term.scr else n
  if n = 0 then s
  else if s.term.scr ≤ sub32 c.HISTSIZE n then
    let s := set_term_scr (add32 s.term.scr n) s
    let s := set_sel_ob_y (add32 s.sel.ob.y n) s
    let s := set_sel_oe_y (add32 s.sel.oe.y n) s
    let s := set_sel_nb_y (MIN s.sel.ob.y s.sel.oe.y) s
    let s := set_sel_ne_y (MAX s.sel.ob.y s.sel.oe.y) s
    let s :=
      if (s.sel.ob.y < 0 ∧ s.sel.oe.y < 0) ∨
          (s.sel.ob.y ≥ s.term.row ∧ s.sel.oe.y ≥ s.term.row) then
        selclear s
      else s
    tfulldirt s
  else s

/-- The exact results, before wrapping, of the computations on `n` and `term.scr` in a
32-bit run of `kscrolldown` with argument `n`, in program order: `-n` when `n < 0`;
`term.scr - n` and the `-n` passed to `selscroll` when `term.scr > 0`; `-1*n` when
`SIXEL_PATCH` is compiled in.  `kscrolldown_nosel` performs the first two of them. -/
def downComputations32 (c : Config) (n : Int) (s : State) : List Int :=
  let r1 := if n < 0 then [-n] else []
  let n := if n < 0 then neg32 n else n
  let n := if n > s.term.scr then s.term.scr else n
  let r2 := if s.term.scr > 0 then [s.term.scr - n, -n] else []
  let r3 := if c.SIXEL_PATCH then [-1 * n] else []
  r1 ++ r2 ++ r3

/-- The exact results, before wrapping, of the computations on `n` and `term.scr` in a
32-bit run of `kscrollup` or `kscrollup_nosel` with argument `n`, in program order: `-n`
when `n < 0`; `term.scr + n`; `term.histn - term.scr` when the clamp is taken; and,
unless `n` is then `0`, `HISTSIZE - n`, and `term.scr + n` when the guard holds. -/
def upComputations32 (c : Config) (n : Int) (s : State) : List Int :=
  let r1 := if n < 0 then [-n] else []
  let n := if n < 0 then neg32 n else n
  let r2 := [s.term.scr + n]
  let r3 := if add32 s.term.scr n > s.term.histn then [s.term.histn - s.term.scr] else []
  let n := if add32 s.term.scr n > s.term.histn then sub32 s.term.histn s.term.scr else n
  if n = 0 then r1 ++ r2 ++ r3
  else
    let r4 := [c.HISTSIZE - n]
    let r5 := if s.term.scr ≤ sub32 c.HISTSIZE n then [s.term.scr + n] else []
    r1 ++ r2 ++ r3 ++ r4 ++ r5

/-- A build with the largest history limit for which an argument of `1000` is within
`INT_MAX - HISTSIZE`. -/
def cfgHuge : Config :=
  { HISTSIZE := 2147482647, SIXEL_PATCH := true, OPENURLONCLICK_PATCH := true }

/-- A state of `cfgHuge` with a full history, scrolled back all but 500 lines. -/
def stHuge : State :=
  { term := { scr := 2147482147, histn := 2147482647, row := 24 },
    sel := { ob := { y := 5 }, oe := { y := 10 }, nb := { y := 5 }, ne := { y := 10 } },
    calls := [] }

/-- The number of lines by which `kscrolldown32` and `kscrolldown_nosel32` move the
view: the first two `if`s of both functions, with the 32-bit `-n`. -/
def downAmount32 (n scr : Int) : Int :=
  let n := if n < 0 then neg32 n else n
  if n > scr then scr else n

/-- The number of lines by which `kscrollup32` and `kscrollup_nosel32` move the view:
the first two `if`s of both functions, with the 32-bit `-n`, `term.scr + n` and
`term.histn - term.scr`. -/
def upAmount32 (n scr histn : Int) : Int :=
  let n := if n < 0 then neg32 n else n
  if add32 scr n > histn then sub32 histn scr else n

/-- Every member of `term` and `sel` holds the value of a 32-bit `int`. -/
def State.IsInt32 (s : State) : Prop :=
  InInt32 s.term.scr ∧ InInt32 s.term.histn ∧ InInt32 s.term.row ∧
  InInt32 s.sel.ob.y ∧ InInt32 s.sel.oe.y ∧ InInt32 s.sel.nb.y ∧ InInt32 s.sel.ne.y

instance (s : State) : Decidable s.IsInt32 :=
  inferInstanceAs (Decidable (_ ∧ _ ∧ _ ∧ _ ∧ _ ∧ _ ∧ _))

/-- A state satisfying the scroll invariant whose selection begins at the smallest
`int` row: `ob.y = INT_MIN`, `oe.y = -2`, both above the window. -/
def stRowMin : State :=
  { term := { scr := 10, histn := 100, row := 24 },
    sel := { ob := { y := -2147483648 }, oe := { y := -2 },
             nb := { y := -2147483648 }, ne := { y := -2 } },
    calls := [] }

/-- A state satisfying the scroll invariant whose selection lies below the window of 24
rows and begins five rows under the largest `int` row: `ob.y = 2147483642`,
`oe.y = 30`. -/
def stRowsHigh : State :=
  { term := { scr := 10, histn := 100, row := 24 },
    sel := { ob := { y := 2147483642 }, oe := { y := 30 },
             nb := { y := 30 }, ne := { y := 2147483642 } },
    calls := [] }

/-! ## Closed forms of the four operations -/

theorem MIN_eq_min (a b : Int) : MIN a b = min a b := by
  unfold MIN
  split_ifs <;> omega

theorem MAX_eq_max (a b : Int) : MAX a b = max a b := by
  unfold MAX
  split_ifs <;> omega

theorem downAmount_eq (n scr : Int) : downAmount n scr = min |n| scr := by
  have habs := abs_cases n
  simp only [downAmount]
  split_ifs <;> omega

theorem upAmount_eq (n scr histn : Int) : upAmount n scr histn = min |n| (histn - scr) := by
  have habs := abs_cases n
  simp only [upAmount]
  split_ifs <;> omega

theorem downAmount_neg (n scr : Int) : downAmount (-n) scr = downAmount n scr := by
  simp only [downAmount]
  split_ifs <;> omega

theorem upAmount_neg (n scr histn : Int) : upAmount (-n) scr histn = upAmount n scr histn := by
  simp only [upAmount]
  split_ifs <;> omega

theorem issued_append (s : State) (t : Term) (sl : Selection) (l : List Call) :
    issued s { term := t, sel := sl, calls := s.calls ++ l } = l := by
  simp [issued]

theorem issued_self (s : State) : issued s s = [] := by
  simp [issued]

theorem kscrolldown_eq (c : Config) (a : Arg) (s : State) :
    kscrolldown c a s =
      { term := if 0 < s.term.scr then
            { s.term with scr := s.term.scr - downAmount a.i s.term.scr } else s.term,
        sel := s.sel,
        calls := s.calls ++
          ((if 0 < s.term.scr then
              [Call.selscroll 0 (-downAmount a.i s.term.scr), Call.tfulldirt] else []) ++
           ((if c.SIXEL_PATCH = true then [Call.scroll_images (-downAmount a.i s.term.scr)]
              else []) ++
            (if c.OPENURLONCLICK_PATCH = true then
              (if 0 < downAmount a.i s.term.scr then [Call.restoremousecursor] else [])
             else []))) } := by
  obtain ⟨t, sl, cs⟩ := s
  have hm : (if (if a.i < 0 then -a.i else a.i) > t.scr then t.scr
      else (if a.i < 0 then -a.i else a.i)) = downAmount a.i t.scr := rfl
  simp only [kscrolldown, selscroll, tfulldirt, scroll_images, restoremousecursor,
    emit, set_term_scr, hm, gt_iff_lt]
  generalize downAmount a.i t.scr = m
  split_ifs <;> simp

theorem kscrolldown_nosel_eq (n : Int) (s : State) :
    kscrolldown_nosel n s =
      if 0 < s.term.scr then
        { term := { s.term with scr := s.term.scr - downAmount n s.term.scr },
          sel := { ob := { y := s.sel.ob.y - downAmount n s.term.scr },
                   oe := { y := s.sel.oe.y - downAmount n s.term.scr },
                   nb := { y := min (s.sel.ob.y - downAmount n s.term.scr)
                                    (s.sel.oe.y - downAmount n s.term.scr) },
                   ne := { y := max (s.sel.ob.y - downAmount n s.term.scr)
                                    (s.sel.oe.y - downAmount n s.term.scr) } },
          calls := s.calls ++
            ((if SameSideOut (s.sel.ob.y - downAmount n s.term.scr)
                  (s.sel.oe.y - downAmount n s.term.scr) s.term.row
              then [Call.selclear] else []) ++ [Call.tfulldirt]) }
      else s := by
  obtain ⟨t, sl, cs⟩ := s
  have hm : (if (if n < 0 then -n else n) > t.scr then t.scr
      else (if n < 0 then -n else n)) = downAmount n t.scr := rfl
  simp only [kscrolldown_nosel, selclear, tfulldirt, emit, set_term_scr,
    set_sel_ob_y, set_sel_oe_y, set_sel_nb_y, set_sel_ne_y, MIN_eq_min, MAX_eq_max, SameSideOut,
    hm, gt_iff_lt, ge_iff_le]
  generalize downAmount n t.scr = m
  split_ifs <;> simp

theorem kscrollup_eq (c : Config) (a : Arg) (s : State) :
    kscrollup c a s =
      if upAmount a.i s.term.scr s.term.histn = 0 then s
      else
        { term := if s.term.scr ≤ c.HISTSIZE - upAmount a.i s.term.scr s.term.histn then
              { s.term with scr := s.term.scr + upAmount a.i s.term.scr s.term.histn }
            else s.term,
          sel := s.sel,
          calls := s.calls ++
            ((if s.term.scr ≤ c.HISTSIZE - upAmount a.i s.term.scr s.term.histn then
                [Call.selscroll 0 (upAmount a.i s.term.scr s.term.histn), Call.tfulldirt]
              else []) ++
             ((if c.SIXEL_PATCH = true then
                 [Call.scroll_images (upAmount a.i s.term.scr s.term.histn)] else []) ++
              (if c.OPENURLONCLICK_PATCH = true then
                (if 0 < upAmount a.i s.term.scr s.term.histn then [Call.restoremousecursor]
                 else [])
               else []))) } := by
  obtain ⟨t, sl, cs⟩ := s
  have hm : (if t.scr + (if a.i < 0 then -a.i else a.i) > t.histn then t.histn - t.scr
      else (if a.i < 0 then -a.i else a.i)) = upAmount a.i t.scr t.histn := rfl
  simp only [kscrollup, selscroll, tfulldirt, scroll_images, restoremousecursor,
    emit, set_term_scr, hm, gt_iff_lt]
  generalize upAmount a.i t.scr t.histn = m
  split_ifs <;> simp

theorem kscrollup_nosel_eq (c : Config) (n : Int) (s : State) :
    kscrollup_nosel c n s =
      if upAmount n s.term.scr s.term.histn = 0 then s
      else if s.term.scr ≤ c.HISTSIZE - upAmount n s.term.scr s.term.histn then
        { term := { s.term with scr := s.term.scr + upAmount n s.term.scr s.term.histn },
          sel := { ob := { y := s.sel.ob.y + upAmount n s.term.scr s.term.histn },
                   oe := { y := s.sel.oe.y + upAmount n s.term.scr s.term.histn },
                   nb := { y := min (s.sel.ob.y + upAmount n s.term.scr s.term.histn)
                                    (s.sel.oe.y + upAmount n s.term.scr s.term.histn) },
                   ne := { y := max (s.sel.ob.y + upAmount n s.term.scr s.term.histn)
                                    (s.sel.oe.y + upAmount n s.term.scr s.term.histn) } },
          calls := s.calls ++
            ((if SameSideOut (s.sel.ob.y + upAmount n s.term.scr s.term.histn)
                  (s.sel.oe.y + upAmount n s.term.scr s.term.histn) s.term.row
              then [Call.selclear] else []) ++ [Call.tfulldirt]) }
      else s := by
  obtain ⟨t, sl, cs⟩ := s
  have hm : (if t.scr + (if n < 0 then -n else n) > t.histn then t.histn - t.scr
      else (if n < 0 then -n else n)) = upAmount n t.scr t.histn := rfl
  simp only [kscrollup_nosel, selclear, tfulldirt, emit, set_term_scr,
    set_sel_ob_y, set_sel_oe_y, set_sel_nb_y, set_sel_ne_y, MIN_eq_min, MAX_eq_max, SameSideOut,
    hm, gt_iff_lt, ge_iff_le]
  generalize upAmount n t.scr t.histn = m
  split_ifs <;> simp

/-! ## Closed forms of the four operations with 32-bit arithmetic -/

theorem kscrolldown32_eq (c : Config) (a : Arg) (s : State) :
    kscrolldown32 c a s =
      { term := if 0 < s.term.scr then
            { s.term with scr := sub32 s.term.scr (downAmount32 a.i s.term.scr) }
          else s.term,
        sel := s.sel,
        calls := s.calls ++
          ((if 0 < s.term.scr then
              [Call.selscroll 0 (neg32 (downAmount32 a.i s.term.scr)), Call.tfulldirt]
            else []) ++
           ((if c.SIXEL_PATCH = true then
               [Call.scroll_images (mul32 (-1) (downAmount32 a.i s.term.scr))] else []) ++
            (if c.OPENURLONCLICK_PATCH = true then
              (if 0 < downAmount32 a.i s.term.scr then [Call.restoremousecursor] else [])
             else []))) } := by
  obtain ⟨t, sl, cs⟩ := s
  have hm : (if (if a.i < 0 then neg32 a.i else a.i) > t.scr then t.scr
      else (if a.i < 0 then neg32 a.i else a.i)) = downAmount32 a.i t.scr := rfl
  simp only [kscrolldown32, selscroll, tfulldirt, scroll_images, restoremousecursor,
    emit, set_term_scr, hm, gt_iff_lt]
  generalize downAmount32 a.i t.scr = m
  split_ifs <;> simp

theorem kscrolldown_nosel32_eq (n : Int) (s : State) :
    kscrolldown_nosel32 n s =
      if 0 < s.term.scr then
        { term := { s.term with scr := sub32 s.term.scr (downAmount32 n s.term.scr) },
          sel := { ob := { y := sub32 s.sel.ob.y (downAmount32 n s.term.scr) },
                   oe := { y := sub32 s.sel.oe.y (downAmount32 n s.term.scr) },
                   nb := { y := min (sub32 s.sel.ob.y (downAmount32 n s.term.scr))
                                    (sub32 s.sel.oe.y (downAmount32 n s.term.scr)) },
                   ne := { y := max (sub32 s.sel.ob.y (downAmount32 n s.term.scr))
                                    (sub32 s.sel.oe.y (downAmount32 n s.term.scr)) } },
          calls := s.calls ++
            ((if SameSideOut (sub32 s.sel.ob.y (downAmount32 n s.term.scr))
                  (sub32 s.sel.oe.y (downAmount32 n s.term.scr)) s.term.row
              then [Call.selclear] else []) ++ [Call.tfulldirt]) }
      else s := by
  obtain ⟨t, sl, cs⟩ := s
  have hm : (if (if n < 0 then neg32 n else n) > t.scr then t.scr
      else (if n < 0 then neg32 n else n)) = downAmount32 n t.scr := rfl
  simp only [kscrolldown_nosel32, selclear, tfulldirt, emit, set_term_scr,
    set_sel_ob_y, set_sel_oe_y, set_sel_nb_y, set_sel_ne_y, MIN_eq_min, MAX_eq_max, SameSideOut,
    hm, gt_iff_lt, ge_iff_le]
  generalize downAmount32 n t.scr = m
  split_ifs <;> simp

theorem kscrollup32_eq (c : Config) (a : Arg) (s : State) :
    kscrollup32 c a s =
      if upAmount32 a.i s.term.scr s.term.histn = 0 then s
      else
        { term := if s.term.scr ≤ sub32 c.HISTSIZE (upAmount32 a.i s.term.scr s.term.histn) then
              { s.term with scr := add32 s.term.scr (upAmount32 a.i s.term.scr s.term.histn) }
            else s.term,
          sel := s.sel,
          calls := s.calls ++
            ((if s.term.scr ≤ sub32 c.HISTSIZE (upAmount32 a.i s.term.scr s.term.histn) then
                [Call.selscroll 0 (upAmount32 a.i s.term.scr s.term.histn), Call.tfulldirt]
              else []) ++
             ((if c.SIXEL_PATCH = true then
                 [Call.scroll_images (upAmount32 a.i s.term.scr s.term.histn)] else []) ++
              (if c.OPENURLONCLICK_PATCH = true then
                (if 0 < upAmount32 a.i s.term.scr s.term.histn then [Call.restoremousecursor]
                 else [])
               else []))) } := by
  obtain ⟨t, sl, cs⟩ := s
  have hm : (if add32 t.scr (if a.i < 0 then neg32 a.i else a.i) > t.histn then
      sub32 t.histn t.scr
      else (if a.i < 0 then neg32 a.i else a.i)) = upAmount32 a.i t.scr t.histn := rfl
  simp only [kscrollup32, selscroll, tfulldirt, scroll_images, restoremousecursor,
    emit, set_term_scr, hm, gt_iff_lt]
  generalize upAmount32 a.i t.scr t.histn = m
  split_ifs <;> simp

theorem kscrollup_nosel32_eq (c : Config) (n : Int) (s : State) :
    kscrollup_nosel32 c n s =
      if upAmount32 n s.term.scr s.term.histn = 0 then s
      else if s.term.scr ≤ sub32 c.HISTSIZE (upAmount32 n s.term.scr s.term.histn) then
        { term := { s.term with scr := add32 s.term.scr (upAmount32 n s.term.scr s.term.histn) },
          sel := { ob := { y := add32 s.sel.ob.y (upAmount32 n s.term.scr s.term.histn) },
                   oe := { y := add32 s.sel.oe.y (upAmount32 n s.term.scr s.term.histn) },
                   nb := { y := min (add32 s.sel.ob.y (upAmount32 n s.term.scr s.term.histn))
                                    (add32 s.sel.oe.y (upAmount32 n s.term.scr s.term.histn)) },
                   ne := { y := max (add32 s.sel.ob.y (upAmount32 n s.term.scr s.term.histn))
                                    (add32 s.sel.oe.y (upAmount32 n s.term.scr s.term.histn)) } },
          calls := s.calls ++
            ((if SameSideOut (add32 s.sel.ob.y (upAmount32 n s.term.scr s.term.histn))
                  (add32 s.sel.oe.y (upAmount32 n s.term.scr s.term.histn)) s.term.row
              then [Call.selclear] else []) ++ [Call.tfulldirt]) }
      else s := by
  obtain ⟨t, sl, cs⟩ := s
  have hm : (if add32 t.scr (if n < 0 then neg32 n else n) > t.histn then sub32 t.histn t.scr
      else (if n < 0 then neg32 n else n)) = upAmount32 n t.scr t.histn := rfl
  simp only [kscrollup_nosel32, selclear, tfulldirt, emit, set_term_scr,
    set_sel_ob_y, set_sel_oe_y, set_sel_nb_y, set_sel_ne_y, MIN_eq_min, MAX_eq_max, SameSideOut,
    hm, gt_iff_lt, ge_iff_le]
  generalize upAmount32 n t.scr t.histn = m
  split_ifs <;> simp

theorem wrap32_eq (x : Int) (h : InInt32 x) : wrap32 x = x := by
  unfold InInt32 INT_MIN INT_MAX at h
  unfold wrap32
  omega

theorem wrap32_wrap32_add (u v : Int) : wrap32 (wrap32 u + v) = wrap32 (u + v) := by
  unfold wrap32
  omega

theorem downAmount32_le (n scr : Int) : downAmount32 n scr ≤ scr := by
  simp only [downAmount32]
  split_ifs <;> omega

/-- For an `int` argument other than `INT_MIN` the clamped amount is `min(|n|, scr)`. -/
theorem downAmount32_eq (n scr : Int) (hn : InInt32 n) (hmin : n ≠ INT_MIN) :
    downAmount32 n scr = min |n| scr := by
  have habs := abs_cases n
  unfold InInt32 INT_MIN INT_MAX at hn
  unfold INT_MIN at hmin
  simp only [downAmount32, neg32, wrap32]
  split_ifs <;> omega

/-- Without overflow of `term.scr + n` the up operations compute the exact clamped
amount, guard and sum. -/
theorem upAmount32_exact (c : Config) (n scr histn : Int) (hc : InInt32 c.HISTSIZE)
    (h0 : 0 ≤ scr) (h1 : scr ≤ histn) (h2 : histn ≤ c.HISTSIZE)
    (hsum : scr + |n| ≤ INT_MAX) :
    upAmount32 n scr histn = min |n| (histn - scr) ∧
    sub32 c.HISTSIZE (upAmount32 n scr histn) = c.HISTSIZE - min |n| (histn - scr) ∧
    add32 scr (upAmount32 n scr histn) = scr + min |n| (histn - scr) := by
  have habs := abs_cases n
  unfold InInt32 INT_MIN INT_MAX at hc
  unfold INT_MAX at hsum
  have hu : upAmount32 n scr histn = min |n| (histn - scr) := by
    simp only [upAmount32, neg32, add32, sub32, wrap32]
    split_ifs <;> omega
  rw [hu]
  refine ⟨rfl, ?_, ?_⟩
  · unfold sub32 wrap32
    omega
  · unfold add32 wrap32
    omega

/-- When `term.scr + n` overflows, the clamp is skipped, `n` is not `0` and the guard
`term.scr <= HISTSIZE-n` fails. -/
theorem upAmount32_overflow (c : Config) (n scr histn : Int) (hc : InInt32 c.HISTSIZE)
    (hn : InInt32 n) (h0 : 0 ≤ scr) (h1 : scr ≤ histn) (h2 : histn ≤ c.HISTSIZE)
    (hov : INT_MAX < scr + |n|) :
    upAmount32 n scr histn = (if n < 0 then neg32 n else n) ∧
    upAmount32 n scr histn ≠ 0 ∧
    ¬ scr ≤ sub32 c.HISTSIZE (upAmount32 n scr histn) := by
  have habs := abs_cases n
  unfold InInt32 INT_MIN INT_MAX at hc hn
  unfold INT_MAX at hov
  have hu : upAmount32 n scr histn = (if n < 0 then neg32 n else n) := by
    simp only [upAmount32, neg32, add32, sub32, wrap32]
    split_ifs <;> omega
  rw [hu]
  refine ⟨rfl, ?_, ?_⟩
  · simp only [neg32, wrap32]
    split_ifs <;> omega
  · simp only [neg32, sub32, wrap32]
    split_ifs <;> omega

/-- For an `int` argument other than `INT_MIN` and `0 ≤ term.scr ≤ INT_MAX`, the down
operations compute the exact clamped amount, difference and negations. -/
theorem downAmount32_exact (n scr : Int) (hn : InInt32 n) (hmin : n ≠ INT_MIN)
    (h0 : 0 ≤ scr) (hs : InInt32 scr) :
    downAmount32 n scr = min |n| scr ∧
    sub32 scr (downAmount32 n scr) = scr - min |n| scr ∧
    neg32 (downAmount32 n scr) = -(min |n| scr) ∧
    mul32 (-1) (downAmount32 n scr) = -(min |n| scr) := by
  have hd := downAmount32_eq n scr hn hmin
  have habs := abs_nonneg n
  unfold InInt32 INT_MIN INT_MAX at hs
  rw [hd]
  refine ⟨rfl, ?_, ?_, ?_⟩
  · unfold sub32 wrap32
    omega
  · unfold neg32 wrap32
    omega
  · unfold mul32 wrap32
    omega

/-! ## Scroll offset after a call -/

/-- C1, the claim as stated fails for the argument `INT_MIN`: in a state with
`0 ≤ term.scr = 10 ≤ term.histn`, `n = -n` leaves `n = INT_MIN`, the clamp is skipped and
`term.scr -= n` wraps, so `kscrolldown` and `kscrolldown_nosel` end with
`term.scr = -2147483638`, while `max(0, term.scr - |n|) = 0`. -/
theorem scrolldown_int_min_fails :
    (0 ≤ stSample.term.scr ∧ stSample.term.scr ≤ stSample.term.histn) ∧
    InInt32 INT_MIN ∧
    (kscrolldown32 cfgFull { i := INT_MIN } stSample).term.scr = -2147483638 ∧
    (kscrolldown_nosel32 INT_MIN stSample).term.scr = -2147483638 ∧
    max 0 (stSample.term.scr - |INT_MIN|) = 0 :=
  ⟨by decide, by decide, by decide, by decide, by decide⟩

/-- C1, amended: in every state of `int` members with `0 ≤ term.scr ≤ term.histn` and
for every `int` argument `n` other than `INT_MIN`, `kscrolldown` with `a->i = n` and
`kscrolldown_nosel(n)` both leave `term.scr = max(0, old term.scr - |n|)`. -/
theorem scrolldown32_scr_eq (c : Config) (s : State) (n : Int) (hs : s.IsInt32)
    (hn : InInt32 n) (hmin : n ≠ INT_MIN)
    (h0 : 0 ≤ s.term.scr) (_h1 : s.term.scr ≤ s.term.histn) :
    (kscrolldown32 c { i := n } s).term.scr = max 0 (s.term.scr - |n|) ∧
    (kscrolldown_nosel32 n s).term.scr = max 0 (s.term.scr - |n|) := by
  obtain ⟨_, e, _, _⟩ := downAmount32_exact n s.term.scr hn hmin h0 hs.1
  have habs := abs_nonneg n
  rw [kscrolldown32_eq, kscrolldown_nosel32_eq]
  dsimp only
  rw [e]
  constructor <;> split_ifs <;> (try dsimp only) <;> omega

/-- C1 (amended) at a sample state, with a negative argument. -/
theorem scrolldown32_scr_eq_witness :
    stSample.IsInt32 ∧ InInt32 (-3) ∧ (-3 : Int) ≠ INT_MIN ∧
    0 ≤ stSample.term.scr ∧ stSample.term.scr ≤ stSample.term.histn ∧
    ((kscrolldown32 cfgFull { i := -3 } stSample).term.scr
        = max 0 (stSample.term.scr - |(-3)|) ∧
     (kscrolldown_nosel32 (-3) stSample).term.scr = max 0 (stSample.term.scr - |(-3)|)) :=
  ⟨by decide, by decide, by decide, by decide, by decide,
    scrolldown32_scr_eq cfgFull stSample (-3) (by decide) (by decide) (by decide)
      (by decide) (by decide)⟩

/-- C2, the claim as stated fails for the argument `INT_MAX`: in a state satisfying
`0 ≤ term.scr = 10 ≤ term.histn = 100 ≤ HISTSIZE`, `term.scr + n` overflows, the clamp
is skipped and the guard `term.scr <= HISTSIZE-n` fails, so `kscrollup` and
`kscrollup_nosel` leave `term.scr = 10`, while `min(term.histn, term.scr + |n|) = 100`. -/
theorem scrollup_int_max_fails :
    ScrollInv cfgFull stSample ∧ InInt32 INT_MAX ∧
    (kscrollup32 cfgFull { i := INT_MAX } stSample).term.scr = 10 ∧
    (kscrollup_nosel32 cfgFull INT_MAX stSample).term.scr = 10 ∧
    min stSample.term.histn (stSample.term.scr + |INT_MAX|) = 100 :=
  ⟨by decide, by decide, by decide, by decide, by decide⟩

/-- C2, amended: in every state with `0 ≤ term.scr ≤ term.histn ≤ HISTSIZE` (`HISTSIZE`
an `int`) and for every argument `n` with `term.scr + |n| ≤ INT_MAX`, `kscrollup` with
`a->i = n` and `kscrollup_nosel(n)` both leave
`term.scr = min(term.histn, old term.scr + |n|)`. -/
theorem scrollup32_scr_eq (c : Config) (s : State) (n : Int) (hc : InInt32 c.HISTSIZE)
    (h : ScrollInv c s) (hsum : s.term.scr + |n| ≤ INT_MAX) :
    (kscrollup32 c { i := n } s).term.scr = min s.term.histn (s.term.scr + |n|) ∧
    (kscrollup_nosel32 c n s).term.scr = min s.term.histn (s.term.scr + |n|) := by
  obtain ⟨h0, h1, h2⟩ := h
  obtain ⟨eu, eg, ea⟩ := upAmount32_exact c n s.term.scr s.term.histn hc h0 h1 h2 hsum
  have habs := abs_nonneg n
  rw [kscrollup32_eq, kscrollup_nosel32_eq]
  dsimp only
  rw [eg, ea, eu]
  constructor <;> split_ifs <;> (try dsimp only) <;> omega

/-- C2 (amended) at a sample state, with an argument that is clamped. -/
theorem scrollup32_scr_eq_witness :
    InInt32 cfgFull.HISTSIZE ∧ ScrollInv cfgFull stSample ∧
    stSample.term.scr + |(-95 : Int)| ≤ INT_MAX ∧
    ((kscrollup32 cfgFull { i := -95 } stSample).term.scr
        = min stSample.term.histn (stSample.term.scr + |(-95)|) ∧
     (kscrollup_nosel32 cfgFull (-95) stSample).term.scr
        = min stSample.term.histn (stSample.term.scr + |(-95)|)) :=
  ⟨by decide, by decide, by decide,
    scrollup32_scr_eq cfgFull stSample (-95) (by decide) (by decide) (by decide)⟩

/-- C3, the claim as stated fails for the argument `INT_MIN`: in a state satisfying
`0 ≤ term.scr ≤ term.histn ≤ HISTSIZE`, `kscrolldown` and `kscrolldown_nosel` leave
`term.scr = -2147483638 < 0`. -/
theorem scroll_invariant_lost_at_int_min :
    ScrollInv cfgFull stSample ∧ InInt32 INT_MIN ∧
    ¬ ScrollInv cfgFull (kscrolldown32 cfgFull { i := INT_MIN } stSample) ∧
    ¬ ScrollInv cfgFull (kscrolldown_nosel32 INT_MIN stSample) ∧
    (kscrolldown32 cfgFull { i := INT_MIN } stSample).term.scr < 0 :=
  ⟨by decide, by decide, by decide, by decide, by decide⟩

/-- C3, amended: with `HISTSIZE` and the argument `n` of type `int`, the predicate
`0 ≤ term.scr ≤ term.histn ≤ HISTSIZE` is preserved by `kscrollup` and `kscrollup_nosel`
for every `n`, and by `kscrolldown` and `kscrolldown_nosel` for every `n` other than
`INT_MIN`; none of the four modifies `term.histn`, whatever `n`. -/
theorem scroll_invariant32_preserved (c : Config) (s : State) (n : Int)
    (hc : InInt32 c.HISTSIZE) (hn : InInt32 n) (h : ScrollInv c s) :
    (n ≠ INT_MIN → ScrollInv c (kscrolldown32 c { i := n } s) ∧
      ScrollInv c (kscrolldown_nosel32 n s)) ∧
    ScrollInv c (kscrollup32 c { i := n } s) ∧
    ScrollInv c (kscrollup_nosel32 c n s) ∧
    (kscrolldown32 c { i := n } s).term.histn = s.term.histn ∧
    (kscrolldown_nosel32 n s).term.histn = s.term.histn ∧
    (kscrollup32 c { i := n } s).term.histn = s.term.histn ∧
    (kscrollup_nosel32 c n s).term.histn = s.term.histn := by
  obtain ⟨h0, h1, h2⟩ := h
  have hscr : InInt32 s.term.scr := by
    unfold InInt32 INT_MIN INT_MAX at hc ⊢
    omega
  have habs := abs_nonneg n
  unfold ScrollInv
  rw [kscrolldown32_eq, kscrolldown_nosel32_eq, kscrollup32_eq, kscrollup_nosel32_eq]
  dsimp only
  refine ⟨?_, ?_, ?_, ?_, ?_, ?_, ?_⟩
  · intro hmin
    obtain ⟨_, e, _, _⟩ := downAmount32_exact n s.term.scr hn hmin h0 hscr
    rw [e]
    constructor <;> split_ifs <;> (try dsimp only) <;> omega
  · by_cases hov : s.term.scr + |n| ≤ INT_MAX
    · obtain ⟨eu, eg, ea⟩ := upAmount32_exact c n s.term.scr s.term.histn hc h0 h1 h2 hov
      rw [eg, ea, eu]
      split_ifs <;> (try dsimp only) <;> omega
    · obtain ⟨_, _, hg⟩ :=
        upAmount32_overflow c n s.term.scr s.term.histn hc hn h0 h1 h2 (by omega)
      rw [if_neg hg]
      split_ifs <;> (try dsimp only) <;> omega
  · by_cases hov : s.term.scr + |n| ≤ INT_MAX
    · obtain ⟨eu, eg, ea⟩ := upAmount32_exact c n s.term.scr s.term.histn hc h0 h1 h2 hov
      rw [eg, ea, eu]
      split_ifs <;> (try dsimp only) <;> omega
    · obtain ⟨_, _, hg⟩ :=
        upAmount32_overflow c n s.term.scr s.term.histn hc hn h0 h1 h2 (by omega)
      rw [if_neg hg]
      split_ifs <;> omega
  · split_ifs <;> rfl
  · split_ifs <;> rfl
  · split_ifs <;> rfl
  · split_ifs <;> rfl

/-- C3 (amended) at a sample state, for an ordinary argument and for `INT_MAX`. -/
theorem scroll_invariant32_preserved_witness :
    InInt32 cfgFull.HISTSIZE ∧ InInt32 3 ∧ InInt32 INT_MAX ∧ ScrollInv cfgFull stSample ∧
    (3 : Int) ≠ INT_MIN ∧
    ScrollInv cfgFull (kscrolldown32 cfgFull { i := 3 } stSample) ∧
    ScrollInv cfgFull (kscrollup_nosel32 cfgFull INT_MAX stSample) :=
  ⟨by decide, by decide, by decide, by decide, by decide,
    ((scroll_invariant32_preserved cfgFull stSample 3 (by decide) (by decide)
      (by decide)).1 (by decide)).1,
    (scroll_invariant32_preserved cfgFull stSample INT_MAX (by decide) (by decide)
      (by decide)).2.2.1⟩

/-! ## Selection translation -/

/-- C4, the claim as stated fails at the limits of `int`, in states satisfying the
scroll invariant.  `kscrolldown_nosel(INT_MIN)` moves `term.scr` from `10` to
`-2147483638`, not by `min(|n|, scr) = 10`; `kscrollup_nosel(INT_MAX)` moves neither
`term.scr` nor the rows, not by `min(|n|, histn - scr) = 90`; and
`kscrollup_nosel(50)` moves `term.scr` by `50` while `sel.ob.y = 2147483642` wraps to
`-2147483604`. -/
theorem nosel_translation_fails_at_int_limits :
    (ScrollInv cfgFull stSample ∧
      (kscrolldown_nosel32 INT_MIN stSample).term.scr = -2147483638 ∧
      stSample.term.scr - min |INT_MIN| stSample.term.scr = 0) ∧
    ((kscrollup_nosel32 cfgFull INT_MAX stSample).term.scr = stSample.term.scr ∧
      (kscrollup_nosel32 cfgFull INT_MAX stSample).sel.ob.y = stSample.sel.ob.y ∧
      min |INT_MAX| (stSample.term.histn - stSample.term.scr) = 90) ∧
    (ScrollInv cfgFull stRowsHigh ∧ stRowsHigh.IsInt32 ∧
      (kscrollup_nosel32 cfgFull 50 stRowsHigh).term.scr = stRowsHigh.term.scr + 50 ∧
      stRowsHigh.sel.ob.y = 2147483642 ∧
      (kscrollup_nosel32 cfgFull 50 stRowsHigh).sel.ob.y = -2147483604) :=
  ⟨⟨by decide, by decide, by decide⟩, ⟨by decide, by decide, by decide⟩,
    by decide, by decide, by decide, by decide, by decide⟩

/-- C4, amended: in every state of `int` members satisfying the scroll invariant
(`HISTSIZE` an `int`) and for every `int` argument `n`:
`kscrolldown_nosel(n)` with `n ≠ INT_MIN` moves `term.scr`, `sel.ob.y` and `sel.oe.y` by
the same amount `-min(|n|, scr)` when the two translated rows are values of `int`;
`kscrollup_nosel(n)` with `term.scr + |n| ≤ INT_MAX` moves the three by
`+min(|n|, histn - scr)` when the two translated rows are values of `int`;
for every `n`, whenever `term.scr` changed, `sel.nb.y` and `sel.ne.y` are the minimum
and the maximum of the two rows, so `nb.y ≤ ne.y`.  With `scr ≥ 3`, `ob.y = 5`,
`oe.y = 10`, `kscrolldown_nosel(3)` gives `ob.y = 2`, `oe.y = 7`, `nb.y = 2`,
`ne.y = 7`. -/
theorem nosel32_translation_exact (c : Config) (s : State) (n : Int)
    (hc : InInt32 c.HISTSIZE) (hs : s.IsInt32) (hn : InInt32 n) (h : ScrollInv c s) :
    (n ≠ INT_MIN →
      InInt32 (s.sel.ob.y - min |n| s.term.scr) →
      InInt32 (s.sel.oe.y - min |n| s.term.scr) →
      TranslatedBy s (kscrolldown_nosel32 n s) (-(min |n| s.term.scr))) ∧
    ((kscrolldown_nosel32 n s).term.scr ≠ s.term.scr →
      Normalised (kscrolldown_nosel32 n s).sel ∧
      (kscrolldown_nosel32 n s).sel.nb.y ≤ (kscrolldown_nosel32 n s).sel.ne.y) ∧
    (s.term.scr + |n| ≤ INT_MAX →
      InInt32 (s.sel.ob.y + min |n| (s.term.histn - s.term.scr)) →
      InInt32 (s.sel.oe.y + min |n| (s.term.histn - s.term.scr)) →
      TranslatedBy s (kscrollup_nosel32 c n s) (min |n| (s.term.histn - s.term.scr))) ∧
    ((kscrollup_nosel32 c n s).term.scr ≠ s.term.scr →
      Normalised (kscrollup_nosel32 c n s).sel ∧
      (kscrollup_nosel32 c n s).sel.nb.y ≤ (kscrollup_nosel32 c n s).sel.ne.y) ∧
    (3 ≤ s.term.scr → s.sel.ob.y = 5 → s.sel.oe.y = 10 →
      (kscrolldown_nosel32 3 s).sel =
        { ob := { y := 2 }, oe := { y := 7 }, nb := { y := 2 }, ne := { y := 7 } }) := by
  obtain ⟨h0, h1, h2⟩ := h
  have habs := abs_nonneg n
  refine ⟨?_, ?_, ?_, ?_, ?_⟩
  · intro hmin hob hoe
    obtain ⟨ed, es, _, _⟩ := downAmount32_exact n s.term.scr hn hmin h0 hs.1
    have eob : sub32 s.sel.ob.y (downAmount32 n s.term.scr)
        = s.sel.ob.y - min |n| s.term.scr := by
      rw [ed]
      exact wrap32_eq _ hob
    have eoe : sub32 s.sel.oe.y (downAmount32 n s.term.scr)
        = s.sel.oe.y - min |n| s.term.scr := by
      rw [ed]
      exact wrap32_eq _ hoe
    rw [kscrolldown_nosel32_eq]
    unfold TranslatedBy
    rw [eob, eoe, es]
    split_ifs <;> (try dsimp only) <;> omega
  · rw [kscrolldown_nosel32_eq]
    unfold Normalised
    by_cases hpos : 0 < s.term.scr
    · rw [if_pos hpos]
      intro _
      dsimp only
      exact ⟨⟨rfl, rfl⟩, min_le_max⟩
    · rw [if_neg hpos]
      intro hne
      exact absurd rfl hne
  · intro hsum hob hoe
    obtain ⟨eu, eg, ea⟩ := upAmount32_exact c n s.term.scr s.term.histn hc h0 h1 h2 hsum
    have eob : add32 s.sel.ob.y (upAmount32 n s.term.scr s.term.histn)
        = s.sel.ob.y + min |n| (s.term.histn - s.term.scr) := by
      rw [eu]
      exact wrap32_eq _ hob
    have eoe : add32 s.sel.oe.y (upAmount32 n s.term.scr s.term.histn)
        = s.sel.oe.y + min |n| (s.term.histn - s.term.scr) := by
      rw [eu]
      exact wrap32_eq _ hoe
    rw [kscrollup_nosel32_eq]
    unfold TranslatedBy
    rw [eob, eoe, eg, ea, eu]
    split_ifs <;> (try dsimp only) <;> omega
  · rw [kscrollup_nosel32_eq]
    unfold Normalised
    by_cases hz : upAmount32 n s.term.scr s.term.histn = 0
    · rw [if_pos hz]
      intro hne
      exact absurd rfl hne
    · rw [if_neg hz]
      by_cases hg : s.term.scr ≤ sub32 c.HISTSIZE (upAmount32 n s.term.scr s.term.histn)
      · rw [if_pos hg]
        intro _
        dsimp only
        exact ⟨⟨rfl, rfl⟩, min_le_max⟩
      · rw [if_neg hg]
        intro hne
        exact absurd rfl hne
  · intro h3 hob hoe
    have h3i : InInt32 3 := by decide
    have h3m : (3 : Int) ≠ INT_MIN := by decide
    have h3abs : |(3 : Int)| = 3 := by decide
    obtain ⟨ed, es, _, _⟩ := downAmount32_exact 3 s.term.scr h3i h3m h0 hs.1
    have hm : downAmount32 3 s.term.scr = 3 := by omega
    rw [kscrolldown_nosel32_eq, if_pos (by omega), hm, hob, hoe]
    rfl

/-- C4 (amended) at the sample state of the claim: `ob.y = 5`, `oe.y = 10`, three
lines down. -/
theorem nosel32_translation_exact_witness :
    InInt32 cfgFull.HISTSIZE ∧ stSample.IsInt32 ∧ InInt32 3 ∧ ScrollInv cfgFull stSample ∧
    (3 ≤ stSample.term.scr ∧ stSample.sel.ob.y = 5 ∧ stSample.sel.oe.y = 10) ∧
    (kscrolldown_nosel32 3 stSample).sel =
      { ob := { y := 2 }, oe := { y := 7 }, nb := { y := 2 }, ne := { y := 7 } } :=
  ⟨by decide, by decide, by decide, by decide, by decide,
    (nosel32_translation_exact cfgFull stSample 3 (by decide) (by decide) (by decide)
      (by decide)).2.2.2.2 (by decide) rfl rfl⟩

/-! ## The clearing rule -/

/-- C7, the claim as stated fails for the argument `INT_MAX`: in a state with
`term.scr = term.histn = 100`, `term.scr + n` overflows, `n` is not clamped to `0`,
`if (!n) return` is passed, and `kscrollup` calls `scroll_images(2147483647)` and
`restoremousecursor()`. -/
theorem scrollup_at_top_calls_hooks_at_int_max :
    ScrollInv cfgFull stTop ∧ stTop.term.scr = stTop.term.histn ∧ InInt32 INT_MAX ∧
    issued stTop (kscrollup32 cfgFull { i := INT_MAX } stTop)
      = [Call.scroll_images 2147483647, Call.restoremousecursor] :=
  ⟨by decide, by decide, by decide, by decide⟩

/-- C7, amended: in every state satisfying `0 ≤ term.scr ≤ term.histn ≤ HISTSIZE`
(`HISTSIZE` an `int`), `kscrollup` and `kscrollup_nosel` called with argument `0` return
the state they were given (the same `term`, the same `sel`, no call added to the log),
so calling either with `0` twice is the same as calling it once; in such a state with
`term.scr = term.histn`, for every `int` argument `n`, `kscrollup_nosel(n)` returns the
state it was given and `kscrollup` leaves `term` and `sel` unchanged, and `kscrollup`
returns the state it was given when `term.scr + |n| ≤ INT_MAX`. -/
theorem scrollup32_noop (c : Config) (s : State) (n : Int) (hc : InInt32 c.HISTSIZE)
    (hn : InInt32 n) (h : ScrollInv c s) :
    (kscrollup32 c { i := 0 } s = s ∧ kscrollup_nosel32 c 0 s = s ∧
      kscrollup32 c { i := 0 } (kscrollup32 c { i := 0 } s) = kscrollup32 c { i := 0 } s ∧
      kscrollup_nosel32 c 0 (kscrollup_nosel32 c 0 s) = kscrollup_nosel32 c 0 s) ∧
    (s.term.scr = s.term.histn →
      kscrollup_nosel32 c n s = s ∧
      (kscrollup32 c { i := n } s).term = s.term ∧
      (kscrollup32 c { i := n } s).sel = s.sel ∧
      (s.term.scr + |n| ≤ INT_MAX → kscrollup32 c { i := n } s = s)) := by
  obtain ⟨h0, h1, h2⟩ := h
  have habs := abs_nonneg n
  have hmax : s.term.scr ≤ INT_MAX := by
    unfold InInt32 at hc
    omega
  constructor
  · have h0abs : |(0 : Int)| = 0 := abs_zero
    obtain ⟨eu, _, _⟩ :=
      upAmount32_exact c 0 s.term.scr s.term.histn hc h0 h1 h2 (by omega)
    have hz : upAmount32 0 s.term.scr s.term.histn = 0 := by omega
    have e1 : kscrollup32 c { i := 0 } s = s := by
      rw [kscrollup32_eq]
      exact if_pos hz
    have e2 : kscrollup_nosel32 c 0 s = s := by
      rw [kscrollup_nosel32_eq]
      exact if_pos hz
    exact ⟨e1, e2, by rw [e1, e1], by rw [e2, e2]⟩
  · intro heq
    by_cases hov : s.term.scr + |n| ≤ INT_MAX
    · obtain ⟨eu, _, _⟩ := upAmount32_exact c n s.term.scr s.term.histn hc h0 h1 h2 hov
      have hz : upAmount32 n s.term.scr s.term.histn = 0 := by omega
      have e1 : kscrollup32 c { i := n } s = s := by
        rw [kscrollup32_eq]
        exact if_pos hz
      refine ⟨?_, by rw [e1], by rw [e1], fun _ => e1⟩
      rw [kscrollup_nosel32_eq]
      exact if_pos hz
    · obtain ⟨_, hnz, hg⟩ :=
        upAmount32_overflow c n s.term.scr s.term.histn hc hn h0 h1 h2 (by omega)
      refine ⟨?_, ?_, ?_, fun hle => absurd hle hov⟩
      · rw [kscrollup_nosel32_eq, if_neg hnz, if_neg hg]
      · rw [kscrollup32_eq, if_neg hnz]
        dsimp only
        rw [if_neg hg]
      · rw [kscrollup32_eq, if_neg hnz]

/-- C7 (amended) at two sample states. -/
theorem scrollup32_noop_witness :
    InInt32 cfgFull.HISTSIZE ∧ InInt32 7 ∧ ScrollInv cfgFull stSample ∧
    ScrollInv cfgFull stTop ∧ stTop.term.scr = stTop.term.histn ∧
    stTop.term.scr + |(7 : Int)| ≤ INT_MAX ∧
    kscrollup32 cfgFull { i := 0 } stSample = stSample ∧
    kscrollup32 cfgFull { i := 7 } stTop = stTop :=
  ⟨by decide, by decide, by decide, by decide, by decide, by decide,
    (scrollup32_noop cfgFull stSample 7 (by decide) (by decide) (by decide)).1.1,
    ((scrollup32_noop cfgFull stTop 7 (by decide) (by decide) (by decide)).2
      (by decide)).2.2.2 (by decide)⟩

/-- C8, the claim as stated fails: with the SIXEL hook compiled in, `kscrolldown` with
argument `4` in a state with `term.scr = 0` calls `scroll_images(0)`. -/
theorem scrolldown_at_bottom_calls_scroll_images :
    stBottom.term.scr = 0 ∧ cfgFull.SIXEL_PATCH = true ∧ InInt32 4 ∧
    issued stBottom (kscrolldown32 cfgFull { i := 4 } stBottom) = [Call.scroll_images 0] :=
  ⟨by decide, by decide, by decide, by decide⟩

/-- C8, amended: for every `int` argument `n`, in a state with `term.scr = 0`,
`kscrolldown_nosel(n)` returns the state it was given (nothing changed, no call), and
`kscrolldown` with `a->i = n` leaves `term` and `sel` unchanged and calls none of
`selscroll`, `tfulldirt`, `selclear`, `restoremousecursor`: it makes no call at all in
a build without `SIXEL_PATCH`, and in a build with `SIXEL_PATCH` its only call is to
`scroll_images`, with argument `0` when `n` is not `INT_MIN`. -/
theorem scrolldown32_at_bottom (c : Config) (s : State) (n : Int) (hn : InInt32 n)
    (h : s.term.scr = 0) :
    kscrolldown_nosel32 n s = s ∧
    (kscrolldown32 c { i := n } s).term = s.term ∧
    (kscrolldown32 c { i := n } s).sel = s.sel ∧
    (∀ x ∈ issued s (kscrolldown32 c { i := n } s), ∃ k : Int, x = Call.scroll_images k) ∧
    (n ≠ INT_MIN → issued s (kscrolldown32 c { i := n } s)
      = (if c.SIXEL_PATCH = true then [Call.scroll_images 0] else [])) ∧
    (c.SIXEL_PATCH = false → kscrolldown32 c { i := n } s = s) := by
  have hle := downAmount32_le n s.term.scr
  have hpos : ¬ 0 < s.term.scr := by omega
  have hd : ¬ 0 < downAmount32 n s.term.scr := by omega
  obtain ⟨t, sl, cs⟩ := s
  dsimp only at h hle hpos hd
  simp only [kscrolldown_nosel32_eq, kscrolldown32_eq, hpos, hd, if_false, List.nil_append,
    ite_self, List.append_nil]
  refine ⟨trivial, trivial, trivial, ?_, ?_, ?_⟩
  · split_ifs <;> simp [issued]
  · intro hmin
    have hz : InInt32 t.scr := by
      rw [h]
      decide
    obtain ⟨ed, _, _, em⟩ := downAmount32_exact n t.scr hn hmin (by omega) hz
    have habs := abs_nonneg n
    have em0 : mul32 (-1) (downAmount32 n t.scr) = 0 := by omega
    rw [em0]
    split_ifs <;> simp [issued]
  · intro hs
    simp [hs]

/-- C8 (amended) at a state with `term.scr = 0`. -/
theorem scrolldown32_at_bottom_witness :
    InInt32 (-4) ∧ stBottom.term.scr = 0 ∧
    kscrolldown_nosel32 (-4) stBottom = stBottom ∧
    (kscrolldown32 cfgFull { i := -4 } stBottom).term = stBottom.term :=
  ⟨by decide, by decide,
    (scrolldown32_at_bottom cfgFull stBottom (-4) (by decide) (by decide)).1,
    (scrolldown32_at_bottom cfgFull stBottom (-4) (by decide) (by decide)).2.1⟩

/-! ## Sign of the argument -/

/-- C10, the claim as stated fails, both hooks compiled in, in a state satisfying the
scroll invariant.  `kscrolldown` with argument `0` leaves `term.scr = 10` unchanged and
still calls `scroll_images(0)`.  `kscrollup` with argument `INT_MAX` leaves
`term.scr = 10` unchanged (`term.scr + n` overflows and the guard fails) and still calls
`scroll_images(2147483647)` and `restoremousecursor()`. -/
theorem hooks_called_without_scroll :
    ScrollInv cfgFull stSample ∧ InInt32 0 ∧ InInt32 INT_MAX ∧
    ((kscrolldown32 cfgFull { i := 0 } stSample).term.scr = stSample.term.scr ∧
      Call.scroll_images 0 ∈ issued stSample (kscrolldown32 cfgFull { i := 0 } stSample)) ∧
    ((kscrollup32 cfgFull { i := INT_MAX } stSample).term.scr = stSample.term.scr ∧
      issued stSample (kscrollup32 cfgFull { i := INT_MAX } stSample)
        = [Call.scroll_images 2147483647, Call.restoremousecursor]) :=
  ⟨by decide, by decide, by decide, ⟨by decide, by decide⟩, by decide, by decide⟩

/-- C10, amended: in every state satisfying `0 ≤ term.scr ≤ term.histn ≤ HISTSIZE`
(`HISTSIZE` and the argument `n` of type `int`): `restoremousecursor` is called by
`kscrolldown` only if that call changed `term.scr`; when `term.scr + |n| ≤ INT_MAX`,
`restoremousecursor` and `scroll_images` are called by `kscrollup` only if that call
changed `term.scr`, and the argument of `scroll_images` is then the change of
`term.scr`, which is positive; when `n` is not `INT_MIN`, every call of `scroll_images`
by `kscrolldown` has the change of `term.scr` as argument, which is negative or zero,
and with `SIXEL_PATCH` compiled in `kscrolldown` makes that call whether or not
`term.scr` changed. -/
theorem hooks32_follow_scroll (c : Config) (s : State) (n : Int) (hc : InInt32 c.HISTSIZE)
    (hn : InInt32 n) (h : ScrollInv c s) :
    (Call.restoremousecursor ∈ issued s (kscrolldown32 c { i := n } s) →
      (kscrolldown32 c { i := n } s).term.scr ≠ s.term.scr) ∧
    (s.term.scr + |n| ≤ INT_MAX →
      (Call.restoremousecursor ∈ issued s (kscrollup32 c { i := n } s) →
        (kscrollup32 c { i := n } s).term.scr ≠ s.term.scr) ∧
      (∀ k : Int, Call.scroll_images k ∈ issued s (kscrollup32 c { i := n } s) →
        (kscrollup32 c { i := n } s).term.scr ≠ s.term.scr ∧
        k = (kscrollup32 c { i := n } s).term.scr - s.term.scr ∧ 0 < k)) ∧
    (n ≠ INT_MIN →
      (∀ k : Int, Call.scroll_images k ∈ issued s (kscrolldown32 c { i := n } s) →
        k = (kscrolldown32 c { i := n } s).term.scr - s.term.scr ∧ k ≤ 0) ∧
      (c.SIXEL_PATCH = true →
        Call.scroll_images ((kscrolldown32 c { i := n } s).term.scr - s.term.scr)
          ∈ issued s (kscrolldown32 c { i := n } s))) := by
  obtain ⟨h0, h1, h2⟩ := h
  have habs := abs_nonneg n
  have hscr : InInt32 s.term.scr := by
    unfold InInt32 INT_MIN INT_MAX at hc ⊢
    omega
  obtain ⟨t, sl, cs⟩ := s
  dsimp only at h0 h1 h2 hscr
  refine ⟨?_, ?_, ?_⟩
  · by_cases hmin : n = INT_MIN
    · have hd : downAmount32 n t.scr = INT_MIN := by
        rw [hmin]
        simp only [downAmount32]
        have e : neg32 INT_MIN = INT_MIN := by decide
        have hlt : INT_MIN < 0 := by decide
        rw [if_pos hlt, e]
        unfold INT_MIN
        split_ifs <;> omega
      have hnp : ¬ (0 : Int) < INT_MIN := by decide
      simp only [kscrolldown32_eq, hd, hnp, if_false]
      split_ifs <;> simp [issued]
    · obtain ⟨ed, es, _, _⟩ := downAmount32_exact n t.scr hn hmin h0 hscr
      rw [ed] at es
      have hdl : min |n| t.scr ≤ t.scr := by omega
      simp only [kscrolldown32_eq, ed, es]
      generalize min |n| t.scr = d at hdl
      split_ifs <;> simp [issued] <;> omega
  · intro hsum
    dsimp only at hsum
    obtain ⟨eu, eg, ea⟩ := upAmount32_exact c n t.scr t.histn hc h0 h1 h2 hsum
    rw [eu] at eg ea
    have hg : t.scr ≤ c.HISTSIZE - min |n| (t.histn - t.scr) := by omega
    have hu0 : 0 ≤ min |n| (t.histn - t.scr) := by omega
    simp only [kscrollup32_eq, eu, eg, ea, hg, if_true]
    generalize min |n| (t.histn - t.scr) = u at hu0
    constructor
    · split_ifs <;> simp [issued] <;> omega
    · intro k
      split_ifs <;> simp [issued] <;> omega
  · intro hmin
    obtain ⟨ed, es, _, em⟩ := downAmount32_exact n t.scr hn hmin h0 hscr
    rw [ed] at es em
    have hdl : min |n| t.scr ≤ t.scr := by omega
    have hd0 : 0 ≤ min |n| t.scr := by omega
    simp only [kscrolldown32_eq, ed, es, em]
    generalize min |n| t.scr = d at hdl hd0
    constructor
    · intro k
      split_ifs <;> simp [issued] <;> omega
    · intro hs
      simp only [hs, if_true]
      split_ifs <;> simp [issued] <;> omega

/-- C10 (amended) at a sample state. -/
theorem hooks32_follow_scroll_witness :
    InInt32 cfgFull.HISTSIZE ∧ InInt32 3 ∧ ScrollInv cfgFull stSample ∧
    stSample.term.scr + |(3 : Int)| ≤ INT_MAX ∧
    Call.restoremousecursor ∈ issued stSample (kscrollup32 cfgFull { i := 3 } stSample) ∧
    (kscrollup32 cfgFull { i := 3 } stSample).term.scr ≠ stSample.term.scr :=
  ⟨by decide, by decide, by decide, by decide, by decide,
    ((hooks32_follow_scroll cfgFull stSample 3 (by decide) (by decide) (by decide)).2.1
      (by decide)).1 (by decide)⟩

/-! ## Redraw and zero magnitude -/

/-- C12, the claim as stated fails.  With `term.scr = 10 > 0`, `kscrolldown_nosel(0)`
on a selection with `nb.y = 4`, `ne.y = 11` over `ob.y = 5`, `oe.y = 10` leaves
`nb.y = 5`, `ne.y = 10`; and on a selection that is present and wholly above the window
(`ob.y = -5`, `oe.y = -2`) it calls `selclear()`. -/
theorem scrolldown_nosel_zero_not_harmless :
    (0 < stSnapped.term.scr ∧ stSnapped.sel.nb.y = 4 ∧ stSnapped.sel.ne.y = 11 ∧
      (kscrolldown_nosel 0 stSnapped).sel.nb.y = 5 ∧
      (kscrolldown_nosel 0 stSnapped).sel.ne.y = 10) ∧
    (0 < stOutAbove.term.scr ∧
      issued stOutAbove (kscrolldown_nosel 0 stOutAbove) = [Call.selclear, Call.tfulldirt]) :=
  ⟨⟨by decide, by decide, by decide, by decide, by decide⟩, by decide, by decide⟩

/-- C12, amended: in every state with `term.scr > 0`, `kscrolldown_nosel(0)` enters the
guarded block and leaves `term`, `sel.ob.y` and `sel.oe.y` unchanged; it sets `sel.nb.y`
and `sel.ne.y` to the minimum and maximum of the raw rows, so a normalised selection is
unchanged; it calls `selclear` exactly when both raw rows are `< 0` or both are
`≥ term.row`, and then `tfulldirt`.  `kscrollup_nosel(0)` in a state with
`term.scr ≤ term.histn` returns the state it was given. -/
theorem scrolldown_nosel_zero (c : Config) (s : State) (h : 0 < s.term.scr) :
    (kscrolldown_nosel 0 s).term = s.term ∧
    (kscrolldown_nosel 0 s).sel.ob = s.sel.ob ∧
    (kscrolldown_nosel 0 s).sel.oe = s.sel.oe ∧
    (kscrolldown_nosel 0 s).sel.nb.y = min s.sel.ob.y s.sel.oe.y ∧
    (kscrolldown_nosel 0 s).sel.ne.y = max s.sel.ob.y s.sel.oe.y ∧
    (Normalised s.sel → (kscrolldown_nosel 0 s).sel = s.sel) ∧
    issued s (kscrolldown_nosel 0 s)
      = (if SameSideOut s.sel.ob.y s.sel.oe.y s.term.row then [Call.selclear] else [])
          ++ [Call.tfulldirt] ∧
    (s.term.scr ≤ s.term.histn → kscrollup_nosel c 0 s = s) := by
  have hd := downAmount_eq 0 s.term.scr
  have hu := upAmount_eq 0 s.term.scr s.term.histn
  have h0 : |(0 : Int)| = 0 := abs_zero
  have hdz : downAmount 0 s.term.scr = 0 := by omega
  obtain ⟨t, sl, cs⟩ := s
  obtain ⟨⟨ob⟩, ⟨oe⟩, ⟨nb⟩, ⟨ne⟩⟩ := sl
  dsimp only at h hd hu hdz
  refine ⟨?_, ?_, ?_, ?_, ?_, ?_, ?_, ?_⟩
  · simp only [kscrolldown_nosel_eq, h, hdz, if_true, sub_zero]
  · simp only [kscrolldown_nosel_eq, h, hdz, if_true, sub_zero]
  · simp only [kscrolldown_nosel_eq, h, hdz, if_true, sub_zero]
  · simp only [kscrolldown_nosel_eq, h, hdz, if_true, sub_zero]
  · simp only [kscrolldown_nosel_eq, h, hdz, if_true, sub_zero]
  · unfold Normalised
    simp only [kscrolldown_nosel_eq, h, hdz, if_true, sub_zero]
    rintro ⟨hnb, hne⟩
    rw [hnb, hne]
  · simp only [kscrolldown_nosel_eq, h, hdz, if_true, sub_zero]
    simp [issued]
  · intro hle
    dsimp only at hle
    have huz : upAmount 0 t.scr t.histn = 0 := by omega
    rw [kscrollup_nosel_eq]
    exact if_pos huz

/-- C12 (amended) at a sample state with a normalised selection inside the window. -/
theorem scrolldown_nosel_zero_witness :
    0 < stSample.term.scr ∧ Normalised stSample.sel ∧
    (kscrolldown_nosel 0 stSample).term = stSample.term ∧
    (kscrolldown_nosel 0 stSample).sel = stSample.sel :=
  ⟨by decide, by decide, (scrolldown_nosel_zero cfgFull stSample (by decide)).1,
    (scrolldown_nosel_zero cfgFull stSample (by decide)).2.2.2.2.2.1 (by decide)⟩

/-! ## Repeated clearing -/

/-- C13, the claim as stated fails when a translated row leaves the range of `int`, in
states satisfying the scroll invariant.  With `term.scr = 10`, `ob.y = INT_MIN`,
`oe.y = -2` (both `< 0`), `kscrolldown_nosel(1)` wraps `ob.y` to `2147483647` and does
not call `selclear`.  With `ob.y = 2147483642`, `oe.y = 30` (both `≥ term.row = 24`),
`kscrollup_nosel(50)` changes `term.scr`, wraps `ob.y` to `-2147483604` and does not
call `selclear`. -/
theorem out_of_range_lost_when_row_wraps :
    (stRowMin.IsInt32 ∧ 0 < stRowMin.term.scr ∧
      stRowMin.sel.ob.y < 0 ∧ stRowMin.sel.oe.y < 0 ∧
      (kscrolldown_nosel32 1 stRowMin).sel.ob.y = 2147483647 ∧
      Call.selclear ∉ issued stRowMin (kscrolldown_nosel32 1 stRowMin)) ∧
    (stRowsHigh.IsInt32 ∧ ScrollInv cfgFull stRowsHigh ∧
      stRowsHigh.term.row ≤ stRowsHigh.sel.ob.y ∧
      stRowsHigh.term.row ≤ stRowsHigh.sel.oe.y ∧
      (kscrollup_nosel32 cfgFull 50 stRowsHigh).term.scr ≠ stRowsHigh.term.scr ∧
      (kscrollup_nosel32 cfgFull 50 stRowsHigh).sel.ob.y = -2147483604 ∧
      Call.selclear ∉ issued stRowsHigh (kscrollup_nosel32 cfgFull 50 stRowsHigh)) :=
  ⟨⟨by decide, by decide, by decide, by decide, by decide, by decide⟩,
    by decide, by decide, by decide, by decide, by decide, by decide, by decide⟩

/-- C13, amended, for states of `int` members and `int` arguments `n`: in every state
with `term.scr > 0`, `sel.ob.y < 0` and `sel.oe.y < 0`, `kscrolldown_nosel(n)` calls
`selclear` for every `n` other than `INT_MIN` for which the translated rows
`sel.ob.y - min(|n|, scr)` and `sel.oe.y - min(|n|, scr)` are not below `INT_MIN`; and in
every state satisfying `0 ≤ term.scr ≤ term.histn ≤ HISTSIZE` with
`sel.ob.y ≥ term.row` and `sel.oe.y ≥ term.row`, every `kscrollup_nosel(n)` that changes
`term.scr` calls `selclear` when the translated rows `sel.ob.y + min(|n|, histn - scr)`
and `sel.oe.y + min(|n|, histn - scr)` are not above `INT_MAX`. -/
theorem out_of_range32_stays_detected (c : Config) (s : State) (n : Int)
    (hc : InInt32 c.HISTSIZE) (hs : s.IsInt32) (hn : InInt32 n) :
    (0 < s.term.scr → n ≠ INT_MIN → s.sel.ob.y < 0 → s.sel.oe.y < 0 →
      INT_MIN ≤ s.sel.ob.y - min |n| s.term.scr →
      INT_MIN ≤ s.sel.oe.y - min |n| s.term.scr →
      Call.selclear ∈ issued s (kscrolldown_nosel32 n s)) ∧
    (ScrollInv c s → s.term.row ≤ s.sel.ob.y → s.term.row ≤ s.sel.oe.y →
      s.sel.ob.y + min |n| (s.term.histn - s.term.scr) ≤ INT_MAX →
      s.sel.oe.y + min |n| (s.term.histn - s.term.scr) ≤ INT_MAX →
      (kscrollup_nosel32 c n s).term.scr ≠ s.term.scr →
      Call.selclear ∈ issued s (kscrollup_nosel32 c n s)) := by
  have habs := abs_nonneg n
  obtain ⟨hscr, _, _, hob, hoe, _, _⟩ := hs
  constructor
  · intro hpos hmin hobn hoen hobl hoel
    obtain ⟨ed, _, _, _⟩ := downAmount32_exact n s.term.scr hn hmin (by omega) hscr
    have eob : sub32 s.sel.ob.y (downAmount32 n s.term.scr)
        = s.sel.ob.y - min |n| s.term.scr := by
      rw [ed]
      apply wrap32_eq
      unfold InInt32 at hob ⊢
      omega
    have eoe : sub32 s.sel.oe.y (downAmount32 n s.term.scr)
        = s.sel.oe.y - min |n| s.term.scr := by
      rw [ed]
      apply wrap32_eq
      unfold InInt32 at hoe ⊢
      omega
    have hcl : SameSideOut (sub32 s.sel.ob.y (downAmount32 n s.term.scr))
        (sub32 s.sel.oe.y (downAmount32 n s.term.scr)) s.term.row := by
      rw [eob, eoe]
      unfold SameSideOut
      omega
    rw [kscrolldown_nosel32_eq, if_pos hpos, issued_append, if_pos hcl]
    simp
  · intro hinv hobr hoer hobl hoel
    obtain ⟨h0, h1, h2⟩ := hinv
    rw [kscrollup_nosel32_eq]
    by_cases hz : upAmount32 n s.term.scr s.term.histn = 0
    · rw [if_pos hz]
      intro hne
      exact absurd rfl hne
    · rw [if_neg hz]
      by_cases hg : s.term.scr ≤ sub32 c.HISTSIZE (upAmount32 n s.term.scr s.term.histn)
      · rw [if_pos hg, issued_append]
        intro _
        have hsum : s.term.scr + |n| ≤ INT_MAX := by
          by_contra hov
          exact (upAmount32_overflow c n s.term.scr s.term.histn hc hn h0 h1 h2
            (by omega)).2.2 hg
        obtain ⟨eu, _, _⟩ := upAmount32_exact c n s.term.scr s.term.histn hc h0 h1 h2 hsum
        have eob : add32 s.sel.ob.y (upAmount32 n s.term.scr s.term.histn)
            = s.sel.ob.y + min |n| (s.term.histn - s.term.scr) := by
          rw [eu]
          apply wrap32_eq
          unfold InInt32 at hob ⊢
          omega
        have eoe : add32 s.sel.oe.y (upAmount32 n s.term.scr s.term.histn)
            = s.sel.oe.y + min |n| (s.term.histn - s.term.scr) := by
          rw [eu]
          apply wrap32_eq
          unfold InInt32 at hoe ⊢
          omega
        have hcl : SameSideOut (add32 s.sel.ob.y (upAmount32 n s.term.scr s.term.histn))
            (add32 s.sel.oe.y (upAmount32 n s.term.scr s.term.histn)) s.term.row := by
          rw [eob, eoe]
          unfold SameSideOut
          omega
        rw [if_pos hcl]
        simp
      · rw [if_neg hg]
        intro hne
        exact absurd rfl hne

/-- C13 (amended) at the selection `ob.y = -5`, `oe.y = -2` in a window of 24 rows,
scrolling down by four lines. -/
theorem out_of_range32_stays_detected_witness :
    InInt32 cfgFull.HISTSIZE ∧ stOutAbove.IsInt32 ∧ InInt32 4 ∧
    0 < stOutAbove.term.scr ∧ (4 : Int) ≠ INT_MIN ∧
    stOutAbove.sel.ob.y = -5 ∧ stOutAbove.sel.oe.y = -2 ∧ stOutAbove.term.row = 24 ∧
    INT_MIN ≤ stOutAbove.sel.ob.y - min |(4 : Int)| stOutAbove.term.scr ∧
    INT_MIN ≤ stOutAbove.sel.oe.y - min |(4 : Int)| stOutAbove.term.scr ∧
    Call.selclear ∈ issued stOutAbove (kscrolldown_nosel32 4 stOutAbove) :=
  ⟨by decide, by decide, by decide, by decide, by decide, by decide, by decide, by decide,
    by decide, by decide,
    (out_of_range32_stays_detected cfgFull stOutAbove 4 (by decide) (by decide)
      (by decide)).1 (by decide) (by decide) (by decide) (by decide) (by decide)
      (by decide)⟩

/-! ## Agreement of the variants -/

theorem wrap32_inInt32 (x : Int) : InInt32 (wrap32 x) := by
  unfold InInt32 INT_MIN INT_MAX wrap32
  omega

/-- Without overflow of `term.scr + n`, `kscrollup_nosel32` moves `term.scr` by the
clamped amount, keeps `term.histn`, and adds the amount to both raw rows in 32-bit
arithmetic. -/
theorem kscrollup_nosel32_moves (c : Config) (n : Int) (s : State) (hc : InInt32 c.HISTSIZE)
    (h : ScrollInv c s) (hob : InInt32 s.sel.ob.y) (hoe : InInt32 s.sel.oe.y)
    (hsum : s.term.scr + |n| ≤ INT_MAX) :
    (kscrollup_nosel32 c n s).term.scr = s.term.scr + min |n| (s.term.histn - s.term.scr) ∧
    (kscrollup_nosel32 c n s).term.histn = s.term.histn ∧
    (kscrollup_nosel32 c n s).sel.ob.y
      = add32 s.sel.ob.y (min |n| (s.term.histn - s.term.scr)) ∧
    (kscrollup_nosel32 c n s).sel.oe.y
      = add32 s.sel.oe.y (min |n| (s.term.histn - s.term.scr)) := by
  obtain ⟨h0, h1, h2⟩ := h
  obtain ⟨eu, eg, ea⟩ := upAmount32_exact c n s.term.scr s.term.histn hc h0 h1 h2 hsum
  have habs := abs_nonneg n
  have hg : s.term.scr ≤ c.HISTSIZE - min |n| (s.term.histn - s.term.scr) := by omega
  rw [kscrollup_nosel32_eq, eg, ea, eu, if_pos hg]
  by_cases hz : min |n| (s.term.histn - s.term.scr) = 0
  · rw [if_pos hz, hz]
    have e1 : add32 s.sel.ob.y 0 = s.sel.ob.y := by
      unfold add32
      rw [add_zero]
      exact wrap32_eq _ hob
    have e2 : add32 s.sel.oe.y 0 = s.sel.oe.y := by
      unfold add32
      rw [add_zero]
      exact wrap32_eq _ hoe
    rw [e1, e2]
    exact ⟨by omega, rfl, rfl, rfl⟩
  · rw [if_neg hz]
    exact ⟨rfl, rfl, rfl, rfl⟩

/-- For an `int` argument other than `INT_MIN` and `0 ≤ term.scr`, `kscrolldown_nosel32`
moves `term.scr` by the clamped amount, keeps `term.histn`, and subtracts the amount from
both raw rows in 32-bit arithmetic. -/
theorem kscrolldown_nosel32_moves (n : Int) (s : State) (hn : InInt32 n) (hmin : n ≠ INT_MIN)
    (h0 : 0 ≤ s.term.scr) (hscr : InInt32 s.term.scr)
    (hob : InInt32 s.sel.ob.y) (hoe : InInt32 s.sel.oe.y) :
    (kscrolldown_nosel32 n s).term.scr = s.term.scr - min |n| s.term.scr ∧
    (kscrolldown_nosel32 n s).term.histn = s.term.histn ∧
    (kscrolldown_nosel32 n s).sel.ob.y = sub32 s.sel.ob.y (min |n| s.term.scr) ∧
    (kscrolldown_nosel32 n s).sel.oe.y = sub32 s.sel.oe.y (min |n| s.term.scr) := by
  obtain ⟨ed, es, _, _⟩ := downAmount32_exact n s.term.scr hn hmin h0 hscr
  have habs := abs_nonneg n
  rw [kscrolldown_nosel32_eq, es, ed]
  by_cases hpos : 0 < s.term.scr
  · rw [if_pos hpos]
    exact ⟨rfl, rfl, rfl, rfl⟩
  · rw [if_neg hpos]
    have hz : min |n| s.term.scr = 0 := by omega
    rw [hz]
    have e1 : sub32 s.sel.ob.y 0 = s.sel.ob.y := by
      unfold sub32
      rw [sub_zero]
      exact wrap32_eq _ hob
    have e2 : sub32 s.sel.oe.y 0 = s.sel.oe.y := by
      unfold sub32
      rw [sub_zero]
      exact wrap32_eq _ hoe
    rw [e1, e2]
    exact ⟨by omega, rfl, rfl, rfl⟩

/-- C15, the claim as stated fails when `term.scr + n` overflows: from `term.scr = 10`,
`term.histn = 100`, `kscrollup_nosel(5)` followed by `kscrollup_nosel(2147483642)` ends
with `term.scr = 15` (the second call overflows and does nothing), while
`kscrollup_nosel(5 + 2147483642)`, whose argument is `INT_MAX`, ends with
`term.scr = 10`. -/
theorem nosel_scroll_not_additive_at_overflow :
    ScrollInv cfgFull stSample ∧ (0 : Int) ≤ 5 ∧ (0 : Int) ≤ 2147483642 ∧
    InInt32 (5 + 2147483642) ∧
    (kscrollup_nosel32 cfgFull 2147483642 (kscrollup_nosel32 cfgFull 5 stSample)).term.scr
      = 15 ∧
    (kscrollup_nosel32 cfgFull (5 + 2147483642) stSample).term.scr = 10 :=
  ⟨by decide, by decide, by decide, by decide, by decide, by decide⟩

/-- C15, amended: in every state of `int` members satisfying
`0 ≤ term.scr ≤ term.histn ≤ HISTSIZE` (`HISTSIZE` an `int`) and for all non-negative
`a` and `b`: when `term.scr + a + b ≤ INT_MAX`, `kscrollup_nosel(a)` followed by
`kscrollup_nosel(b)` ends with the same `term.scr`, `sel.ob.y` and `sel.oe.y` as
`kscrollup_nosel(a + b)`; when `a + b ≤ INT_MAX`, `kscrolldown_nosel(a)` followed by
`kscrolldown_nosel(b)` ends with the same three values as `kscrolldown_nosel(a + b)`;
whether or not a call is clamped at a bound. -/
theorem nosel32_scroll_additive (c : Config) (s : State) (a b : Int)
    (hc : InInt32 c.HISTSIZE) (hs : s.IsInt32) (h : ScrollInv c s)
    (ha : 0 ≤ a) (hb : 0 ≤ b) :
    (s.term.scr + a + b ≤ INT_MAX →
      (kscrollup_nosel32 c b (kscrollup_nosel32 c a s)).term.scr
        = (kscrollup_nosel32 c (a + b) s).term.scr ∧
      (kscrollup_nosel32 c b (kscrollup_nosel32 c a s)).sel.ob.y
        = (kscrollup_nosel32 c (a + b) s).sel.ob.y ∧
      (kscrollup_nosel32 c b (kscrollup_nosel32 c a s)).sel.oe.y
        = (kscrollup_nosel32 c (a + b) s).sel.oe.y) ∧
    (a + b ≤ INT_MAX →
      (kscrolldown_nosel32 b (kscrolldown_nosel32 a s)).term.scr
        = (kscrolldown_nosel32 (a + b) s).term.scr ∧
      (kscrolldown_nosel32 b (kscrolldown_nosel32 a s)).sel.ob.y
        = (kscrolldown_nosel32 (a + b) s).sel.ob.y ∧
      (kscrolldown_nosel32 b (kscrolldown_nosel32 a s)).sel.oe.y
        = (kscrolldown_nosel32 (a + b) s).sel.oe.y) := by
  have habs_a : |a| = a := abs_of_nonneg ha
  have habs_b : |b| = b := abs_of_nonneg hb
  have habs_ab : |a + b| = a + b := abs_of_nonneg (by omega)
  obtain ⟨hscr, _, _, hob, hoe, _, _⟩ := hs
  obtain ⟨h0, h1, h2⟩ := h
  constructor
  · intro hsum
    obtain ⟨e1s, e1h, e1b, e1e⟩ :=
      kscrollup_nosel32_moves c a s hc ⟨h0, h1, h2⟩ hob hoe (by omega)
    have inv1 : ScrollInv c (kscrollup_nosel32 c a s) := by
      unfold ScrollInv
      omega
    have hob1 : InInt32 (kscrollup_nosel32 c a s).sel.ob.y := by
      rw [e1b]
      exact wrap32_inInt32 _
    have hoe1 : InInt32 (kscrollup_nosel32 c a s).sel.oe.y := by
      rw [e1e]
      exact wrap32_inInt32 _
    obtain ⟨e2s, _, e2b, e2e⟩ :=
      kscrollup_nosel32_moves c b (kscrollup_nosel32 c a s) hc inv1 hob1 hoe1 (by omega)
    obtain ⟨e3s, _, e3b, e3e⟩ :=
      kscrollup_nosel32_moves c (a + b) s hc ⟨h0, h1, h2⟩ hob hoe (by omega)
    rw [e2s, e2b, e2e, e3s, e3b, e3e, e1s, e1h, e1b, e1e]
    simp only [habs_a, habs_b, habs_ab]
    have key : min a (s.term.histn - s.term.scr)
        + min b (s.term.histn - (s.term.scr + min a (s.term.histn - s.term.scr)))
        = min (a + b) (s.term.histn - s.term.scr) := by omega
    generalize min (a + b) (s.term.histn - s.term.scr) = z at key
    generalize min b (s.term.histn - (s.term.scr + min a (s.term.histn - s.term.scr))) = y
      at key
    generalize min a (s.term.histn - s.term.scr) = x at key
    subst key
    refine ⟨by omega, ?_, ?_⟩
    · unfold add32
      rw [wrap32_wrap32_add, add_assoc]
    · unfold add32
      rw [wrap32_wrap32_add, add_assoc]
  · intro hsum
    have hia : InInt32 a := by
      unfold InInt32 INT_MIN
      omega
    have hib : InInt32 b := by
      unfold InInt32 INT_MIN
      omega
    have hiab : InInt32 (a + b) := by
      unfold InInt32 INT_MIN
      omega
    have hma : a ≠ INT_MIN := by
      unfold INT_MIN
      omega
    have hmb : b ≠ INT_MIN := by
      unfold INT_MIN
      omega
    have hmab : a + b ≠ INT_MIN := by
      unfold INT_MIN
      omega
    obtain ⟨e1s, _, e1b, e1e⟩ := kscrolldown_nosel32_moves a s hia hma h0 hscr hob hoe
    have pos1 : 0 ≤ (kscrolldown_nosel32 a s).term.scr := by omega
    have hscr1 : InInt32 (kscrolldown_nosel32 a s).term.scr := by
      unfold InInt32 INT_MIN at hscr ⊢
      omega
    have hob1 : InInt32 (kscrolldown_nosel32 a s).sel.ob.y := by
      rw [e1b]
      exact wrap32_inInt32 _
    have hoe1 : InInt32 (kscrolldown_nosel32 a s).sel.oe.y := by
      rw [e1e]
      exact wrap32_inInt32 _
    obtain ⟨e2s, _, e2b, e2e⟩ :=
      kscrolldown_nosel32_moves b (kscrolldown_nosel32 a s) hib hmb pos1 hscr1 hob1 hoe1
    obtain ⟨e3s, _, e3b, e3e⟩ :=
      kscrolldown_nosel32_moves (a + b) s hiab hmab h0 hscr hob hoe
    rw [e2s, e2b, e2e, e3s, e3b, e3e, e1s, e1b, e1e]
    simp only [habs_a, habs_b, habs_ab]
    have key : min a s.term.scr + min b (s.term.scr - min a s.term.scr)
        = min (a + b) s.term.scr := by omega
    generalize min (a + b) s.term.scr = z at key
    generalize min b (s.term.scr - min a s.term.scr) = y at key
    generalize min a s.term.scr = x at key
    subst key
    refine ⟨by omega, ?_, ?_⟩
    · unfold sub32
      rw [sub_eq_add_neg (wrap32 _) y, wrap32_wrap32_add]
      congr 1
      omega
    · unfold sub32
      rw [sub_eq_add_neg (wrap32 _) y, wrap32_wrap32_add]
      congr 1
      omega

/-- C15 (amended) at a sample state: scrolling up by 60 and then by 50, where the second
call is clamped at `term.histn = 100`. -/
theorem nosel32_scroll_additive_witness :
    InInt32 cfgFull.HISTSIZE ∧ stSample.IsInt32 ∧ ScrollInv cfgFull stSample ∧
    (0 : Int) ≤ 60 ∧ (0 : Int) ≤ 50 ∧ stSample.term.scr + 60 + 50 ≤ INT_MAX ∧
    (kscrollup_nosel32 cfgFull 50 (kscrollup_nosel32 cfgFull 60 stSample)).term.scr
      = (kscrollup_nosel32 cfgFull (60 + 50) stSample).term.scr :=
  ⟨by decide, by decide, by decide, by decide, by decide, by decide,
    ((nosel32_scroll_additive cfgFull stSample 60 50 (by decide) (by decide) (by decide)
      (by decide) (by decide)).1 (by decide)).1⟩

/-! ## Agreement of 32-bit and unbounded arithmetic -/

/-- C16: with 32-bit `int` arithmetic wrapping modulo `2^32`, in every state satisfying
`0 ≤ term.scr ≤ term.histn ≤ HISTSIZE` and for every argument `n` with
`|n| ≤ INT_MAX - HISTSIZE`, every computation on `n` and `term.scr` in the four
operations (`-n`, `term.scr + n`, `term.histn - term.scr`, `HISTSIZE - n`,
`term.scr -= n`, `term.scr += n`) has its exact result in the range of `int`, and each
operation ends with the same `term.scr` as with unbounded integers. -/
theorem int32_agrees (c : Config) (s : State) (n : Int) (h : ScrollInv c s)
    (hn : |n| ≤ INT_MAX - c.HISTSIZE) :
    (∀ v ∈ downComputations32 c n s, InInt32 v) ∧
    (∀ v ∈ upComputations32 c n s, InInt32 v) ∧
    (kscrolldown32 c { i := n } s).term.scr = (kscrolldown c { i := n } s).term.scr ∧
    (kscrolldown_nosel32 n s).term.scr = (kscrolldown_nosel n s).term.scr ∧
    (kscrollup32 c { i := n } s).term.scr = (kscrollup c { i := n } s).term.scr ∧
    (kscrollup_nosel32 c n s).term.scr = (kscrollup_nosel c n s).term.scr := by
  obtain ⟨h0, h1, h2⟩ := h
  have habs := abs_cases n
  unfold INT_MAX at hn
  obtain ⟨t, sl, cs⟩ := s
  obtain ⟨scr, histn, row⟩ := t
  dsimp only at h0 h1 h2
  have hm : (if n < 0 then neg32 n else n) = |n| := by
    unfold neg32 wrap32
    split_ifs <;> omega
  have hm' : (if n < 0 then -n else n) = |n| := by
    split_ifs <;> omega
  have hm0 : 0 ≤ |n| := abs_nonneg n
  clear habs
  refine ⟨?_, ?_, ?_, ?_, ?_, ?_⟩
  · simp only [downComputations32, hm]
    by_cases hlt : n < 0
    · have e : -n = |n| := by rw [abs_of_neg hlt]
      simp only [hlt, if_true, e]
      generalize |n| = m at hn hm0
      split_ifs <;> simp [InInt32, INT_MIN, INT_MAX] <;> omega
    · simp only [hlt, if_false]
      generalize |n| = m at hn hm0
      split_ifs <;> simp [InInt32, INT_MIN, INT_MAX] <;> omega
  · simp only [upComputations32, hm]
    have e1 : add32 scr |n| = scr + |n| := by
      unfold add32 wrap32
      omega
    have e2 : sub32 histn scr = histn - scr := by
      unfold sub32 wrap32
      omega
    simp only [e1, e2]
    by_cases hlt : n < 0
    · have e : -n = |n| := by rw [abs_of_neg hlt]
      simp only [hlt, if_true, e]
      generalize |n| = m at hn hm0
      split_ifs <;> simp [InInt32, INT_MIN, INT_MAX] <;> omega
    · simp only [hlt, if_false]
      generalize |n| = m at hn hm0
      split_ifs <;> simp [InInt32, INT_MIN, INT_MAX] <;> omega
  · generalize |n| = m at hn hm0 hm hm'
    have e : sub32 scr (if m > scr then scr else m) = scr - (if m > scr then scr else m) := by
      unfold sub32 wrap32
      split_ifs <;> omega
    simp only [kscrolldown32, kscrolldown, hm, hm', e, selscroll, tfulldirt, scroll_images,
      restoremousecursor, emit, set_term_scr]
    split_ifs <;> rfl
  · generalize |n| = m at hn hm0 hm hm'
    have e : sub32 scr (if m > scr then scr else m) = scr - (if m > scr then scr else m) := by
      unfold sub32 wrap32
      split_ifs <;> omega
    simp only [kscrolldown_nosel32, kscrolldown_nosel, hm, hm', e, selclear, tfulldirt, emit,
      set_term_scr, set_sel_ob_y, set_sel_oe_y, set_sel_nb_y, set_sel_ne_y]
    split_ifs <;> rfl
  · generalize |n| = m at hn hm0 hm hm'
    have e1 : add32 scr m = scr + m := by
      unfold add32 wrap32
      omega
    have e2 : sub32 histn scr = histn - scr := by
      unfold sub32 wrap32
      omega
    have e3 : sub32 c.HISTSIZE (if scr + m > histn then histn - scr else m)
        = c.HISTSIZE - (if scr + m > histn then histn - scr else m) := by
      unfold sub32 wrap32
      split_ifs <;> omega
    have e4 : add32 scr (if scr + m > histn then histn - scr else m)
        = scr + (if scr + m > histn then histn - scr else m) := by
      unfold add32 wrap32
      split_ifs <;> omega
    simp only [kscrollup32, kscrollup, hm, hm', e1, e2, e3, e4]
  · generalize |n| = m at hn hm0 hm hm'
    have e1 : add32 scr m = scr + m := by
      unfold add32 wrap32
      omega
    have e2 : sub32 histn scr = histn - scr := by
      unfold sub32 wrap32
      omega
    have e3 : sub32 c.HISTSIZE (if scr + m > histn then histn - scr else m)
        = c.HISTSIZE - (if scr + m > histn then histn - scr else m) := by
      unfold sub32 wrap32
      split_ifs <;> omega
    have e4 : add32 scr (if scr + m > histn then histn - scr else m)
        = scr + (if scr + m > histn then histn - scr else m) := by
      unfold add32 wrap32
      split_ifs <;> omega
    simp only [kscrollup_nosel32, kscrollup_nosel, hm, hm', e1, e2, e3, e4, selclear,
      tfulldirt, emit, set_term_scr, set_sel_ob_y, set_sel_oe_y, set_sel_nb_y, set_sel_ne_y]
    split_ifs <;> rfl

/-- C16 at a history limit of `INT_MAX - 1000` with the argument `-1000`. -/
theorem int32_agrees_witness :
    ScrollInv cfgHuge stHuge ∧ |(-1000 : Int)| ≤ INT_MAX - cfgHuge.HISTSIZE ∧
    (kscrollup32 cfgHuge { i := -1000 } stHuge).term.scr
      = (kscrollup cfgHuge { i := -1000 } stHuge).term.scr ∧
    (kscrollup32 cfgHuge { i := -1000 } stHuge).term.scr = 2147482647 :=
  ⟨by decide, by decide,
    (int32_agrees cfgHuge stHuge (-1000) (by decide) (by decide)).2.2.2.2.1, by decide⟩

end Scrollback
